import Mathlib

/-!
Verification development for the orbitx physics/engineering state container
(orbitx/data_structures.py).  The Python classes are shallowly embedded:
numpy buffers become lists of rationals, in-place mutation becomes explicit
state passing, and Python exceptions become an explicit error type threaded
through Except.  Field widths of the engineering subsystem records (6 for
Component, 3 for CoolantLoop, 2 for Radiator) follow the hard-coded view
offsets in the source; the subsystem instance counts, which the source reads
from a strings module that is not part of the sources, are carried as
explicit parameters.  The order of the ten mutable entity fields, which the
source derives from the protobuf descriptor (also not part of the sources),
is modelled from the spec listing: x, y, vx, vy, heading, spin, fuel,
throttle, landed_on, broken.
-/

/-- Python-level exceptions raised by the embedded code paths:
NoEntityError (a ValueError subclass carrying the missing name), IndexError,
ValueError from list.index, and AssertionError from assert statements. -/
inductive PyErr where
  | noEntity (name : String)
  | indexError
  | valueError
  | assertError
deriving DecidableEq

instance {ε α : Type} [DecidableEq ε] [DecidableEq α] : DecidableEq (Except ε α) := fun x y =>
  match x, y with
  | .ok a, .ok b => decidable_of_iff (a = b) (by simp)
  | .error a, .error b => decidable_of_iff (a = b) (by simp)
  | .ok _, .error _ => isFalse (by simp)
  | .error _, .ok _ => isFalse (by simp)

/-- Indexing a 1-D numpy array (or a Python list) by a possibly negative
integer: a negative index counts from the end; anything still out of range
raises IndexError. -/
def npGet {α : Type} (l : List α) (i : ℤ) : Except PyErr α :=
  let j : ℤ := if i < 0 then i + l.length else i
  if h : 0 ≤ j ∧ j < (l.length : ℤ) then
    .ok (l.get ⟨j.toNat, by omega⟩)
  else .error .indexError

/-- Assigning through a 1-D numpy array index, with the same negative-index
wraparound and IndexError behaviour as npGet. -/
def npSet {α : Type} (l : List α) (i : ℤ) (v : α) : Except PyErr (List α) :=
  let j : ℤ := if i < 0 then i + l.length else i
  if 0 ≤ j ∧ j < (l.length : ℤ) then .ok (l.set j.toNat v) else .error .indexError

/-- Python int() applied to a float: truncation toward zero. -/
def pyInt (q : ℚ) : ℤ := q.num.tdiv (q.den : ℤ)

/-- Storing a Python bool into a float64 buffer slot. -/
def boolToQ (b : Bool) : ℚ := if b then 1 else 0

/-- Python bool() applied to a float64 buffer slot: nonzero means true. -/
def qToBool (q : ℚ) : Bool := if q = 0 then false else true

/-- Floored modulus, the semantics of np.mod(h, tau): the source uses
tau = 2 * pi to normalize headings. -/
def hmod (tau h : ℚ) : ℚ := h - tau * ⌊h / tau⌋

/-- Entity record of the PhysicalState protobuf: six unchanging fields
followed by the ten mutable fields. -/
structure Entity where
  name : String
  mass : ℚ
  r : ℚ
  artificial : Bool
  atmosphere_thickness : ℚ
  atmosphere_scaling : ℚ
  x : ℚ
  y : ℚ
  vx : ℚ
  vy : ℚ
  heading : ℚ
  spin : ℚ
  fuel : ℚ
  throttle : ℚ
  landed_on : String
  broken : Bool
deriving DecidableEq

instance : Inhabited Entity :=
  ⟨⟨"", 0, 0, false, 0, 0, 0, 0, 0, 0, 0, 0, 0, 0, "", false⟩⟩

/-- Component record of the EngineeringState protobuf: six fields, in the
order of the hard-coded ComponentView offsets. -/
structure Component where
  connected : Bool
  temperature : ℚ
  resistance : ℚ
  voltage : ℚ
  current : ℚ
  attached_to_coolant_loop : ℤ
deriving DecidableEq

instance : Inhabited Component := ⟨⟨false, 0, 0, 0, 0, 0⟩⟩

/-- CoolantLoop record of the EngineeringState protobuf: three fields. -/
structure CoolantLoop where
  coolant_temp : ℚ
  primary_pump_on : Bool
  secondary_pump_on : Bool
deriving DecidableEq

instance : Inhabited CoolantLoop := ⟨⟨0, false, false⟩⟩

/-- Radiator record of the EngineeringState protobuf: two fields. -/
structure Radiator where
  attached_to_coolant_loop : ℤ
  functioning : Bool
deriving DecidableEq

instance : Inhabited Radiator := ⟨⟨0, false⟩⟩

/-- EngineeringState protobuf message: the three subsystem lists plus the
scalar flags that stay in the structured snapshot. -/
structure EngineeringProto where
  components : List Component
  coolant_loops : List CoolantLoop
  radiators : List Radiator
  master_alarm : Bool
  radiation_alarm : Bool
  asteroid_alarm : Bool
  hab_reactor_alarm : Bool
  ayse_reactor_alarm : Bool
  hab_gnomes : Bool
deriving DecidableEq

instance : Inhabited EngineeringProto :=
  ⟨⟨[], [], [], false, false, false, false, false, false⟩⟩

/-- PhysicalState protobuf message: entity list, scalar selectors and timers,
and the nested engineering state. -/
structure PhysicalState where
  entities : List Entity
  timestamp : ℚ
  srb_time : ℚ
  time_acc : ℚ
  parachute_deployed : Bool
  reference : String
  target : String
  navmode : ℕ
  engineering : EngineeringProto
deriving DecidableEq

/-- Well-known name of the primary craft (from the strings module). -/
def HABITAT : String := "Habitat"

/-- Well-known name of the secondary craft (from the strings module). -/
def AYSE : String := "AYSE"

/-- The special landed_on field symbol. -/
def LANDED_ON : String := "landed_on"

/-- Sentinel index meaning an entity is not landed on anything. -/
def NO_INDEX : ℤ := -1

/-- Column index assigned to each mutable entity field
(the _ENTITY_FIELD_ORDER table). -/
def FIELD_ORDER : String → ℕ
  | "x" => 0
  | "y" => 1
  | "vx" => 2
  | "vy" => 3
  | "heading" => 4
  | "spin" => 5
  | "fuel" => 6
  | "throttle" => 7
  | "landed_on" => 8
  | "broken" => 9
  | _ => 0

/-- Per-instance field width of a Component in the engineering block. -/
def N_COMPONENT_FIELDS : ℕ := 6

/-- Per-instance field width of a CoolantLoop in the engineering block. -/
def N_COOLANT_FIELDS : ℕ := 3

/-- Per-instance field width of a Radiator in the engineering block. -/
def N_RADIATOR_FIELDS : ℕ := 2

/-- Total size of the engineering block for the given subsystem counts
(EngineeringState.N_ENGINEERING_FIELDS). -/
def engFieldCount (nC nL nR : ℕ) : ℕ :=
  nC * N_COMPONENT_FIELDS + nL * N_COOLANT_FIELDS + nR * N_RADIATOR_FIELDS

/-- EngineeringState: wraps the engineering slice of the flat buffer plus the
underlying protobuf.  The instance counts, which the source takes from the
strings module, are carried as explicit configuration fields. -/
structure EngineeringState where
  nC : ℕ
  nL : ℕ
  nR : ℕ
  arr : List ℚ
  proto : EngineeringProto
deriving DecidableEq

/-- Slice of the engineering block holding component data
(arr up to _COOLANT_START_INDEX). -/
def EngineeringState.compSlice (es : EngineeringState) : List ℚ :=
  es.arr.take (es.nC * N_COMPONENT_FIELDS)

/-- Slice of the engineering block holding coolant loop data
(arr between _COOLANT_START_INDEX and _RADIATOR_START_INDEX). -/
def EngineeringState.coolSlice (es : EngineeringState) : List ℚ :=
  (es.arr.drop (es.nC * N_COMPONENT_FIELDS)).take (es.nL * N_COOLANT_FIELDS)

/-- Slice of the engineering block holding radiator data
(arr from _RADIATOR_START_INDEX on). -/
def EngineeringState.radSlice (es : EngineeringState) : List ℚ :=
  es.arr.drop (es.nC * N_COMPONENT_FIELDS + es.nL * N_COOLANT_FIELDS)

/-- CoolantView: a view over the coolant slice for one coolant loop index. -/
structure CoolantView where
  arr : List ℚ
  n : ℤ
deriving DecidableEq

/-- CoolantView.coolant_temp getter. -/
def CoolantView.coolant_temp (c : CoolantView) : Except PyErr ℚ :=
  npGet c.arr (c.n * (N_COOLANT_FIELDS : ℤ) + 0)

/-- CoolantView.primary_pump_on getter. -/
def CoolantView.primary_pump_on (c : CoolantView) : Except PyErr Bool :=
  (npGet c.arr (c.n * (N_COOLANT_FIELDS : ℤ) + 1)).map qToBool

/-- CoolantView.secondary_pump_on getter. -/
def CoolantView.secondary_pump_on (c : CoolantView) : Except PyErr Bool :=
  (npGet c.arr (c.n * (N_COOLANT_FIELDS : ℤ) + 2)).map qToBool

/-- ComponentView: a view over the component slice for one component index,
holding its parent EngineeringState for get_coolant_loop. -/
structure ComponentView where
  parent : EngineeringState
  arr : List ℚ
  n : ℤ
deriving DecidableEq

/-- ComponentView.connected getter. -/
def ComponentView.connected (c : ComponentView) : Except PyErr Bool :=
  (npGet c.arr (c.n * (N_COMPONENT_FIELDS : ℤ) + 0)).map qToBool

/-- ComponentView.temperature getter. -/
def ComponentView.temperature (c : ComponentView) : Except PyErr ℚ :=
  npGet c.arr (c.n * (N_COMPONENT_FIELDS : ℤ) + 1)

/-- ComponentView.resistance getter. -/
def ComponentView.resistance (c : ComponentView) : Except PyErr ℚ :=
  npGet c.arr (c.n * (N_COMPONENT_FIELDS : ℤ) + 2)

/-- ComponentView.voltage getter. -/
def ComponentView.voltage (c : ComponentView) : Except PyErr ℚ :=
  npGet c.arr (c.n * (N_COMPONENT_FIELDS : ℤ) + 3)

/-- ComponentView.current getter. -/
def ComponentView.current (c : ComponentView) : Except PyErr ℚ :=
  npGet c.arr (c.n * (N_COMPONENT_FIELDS : ℤ) + 4)

/-- ComponentView.attached_to_coolant_loop getter: int() of the stored
float. -/
def ComponentView.attached_to_coolant_loop (c : ComponentView) : Except PyErr ℤ :=
  (npGet c.arr (c.n * (N_COMPONENT_FIELDS : ℤ) + 5)).map pyInt

/-- RadiatorView: a view over the radiator slice for one radiator index,
holding its parent EngineeringState for get_coolant_loop. -/
structure RadiatorView where
  parent : EngineeringState
  arr : List ℚ
  n : ℤ
deriving DecidableEq

/-- RadiatorView.attached_to_coolant_loop getter: int() of the stored
float. -/
def RadiatorView.attached_to_coolant_loop (r : RadiatorView) : Except PyErr ℤ :=
  (npGet r.arr (r.n * (N_RADIATOR_FIELDS : ℤ) + 0)).map pyInt

/-- RadiatorView.functioning getter. -/
def RadiatorView.functioning (r : RadiatorView) : Except PyErr Bool :=
  (npGet r.arr (r.n * (N_RADIATOR_FIELDS : ℤ) + 1)).map qToBool

/-- ComponentList.__getitem__ restricted to the integer path; the string path
converts a known component name to an in-range integer through a name table
that the sources do not contain.  Only the upper bound is checked. -/
def EngineeringState.componentsGet (es : EngineeringState) (i : ℤ) :
    Except PyErr ComponentView :=
  if i ≥ (es.nC : ℤ) then .error .indexError
  else .ok ⟨es, es.compSlice, i⟩

/-- CoolantLoopList.__getitem__ restricted to the integer path.  Only the
upper bound is checked. -/
def EngineeringState.coolantLoopsGet (es : EngineeringState) (i : ℤ) :
    Except PyErr CoolantView :=
  if i ≥ (es.nL : ℤ) then .error .indexError
  else .ok ⟨es.coolSlice, i⟩

/-- RadiatorList.__getitem__ restricted to the integer path.  Only the upper
bound is checked. -/
def EngineeringState.radiatorsGet (es : EngineeringState) (i : ℤ) :
    Except PyErr RadiatorView :=
  if i ≥ (es.nR : ℤ) then .error .indexError
  else .ok ⟨es, es.radSlice, i⟩

/-- ComponentView.get_coolant_loop: resolves the stored 1-based reference by
indexing the parent coolant loop list at reference minus one. -/
def ComponentView.get_coolant_loop (c : ComponentView) : Except PyErr CoolantView := do
  let a ← c.attached_to_coolant_loop
  c.parent.coolantLoopsGet (a - 1)

/-- RadiatorView.get_coolant_loop: resolves the stored 1-based reference by
indexing the parent coolant loop list at reference minus one. -/
def RadiatorView.get_coolant_loop (r : RadiatorView) : Except PyErr CoolantView := do
  let a ← r.attached_to_coolant_loop
  r.parent.coolantLoopsGet (a - 1)

/-- Value written into the engineering block for field fo of a component
during the populate loop (descriptor field order matches the view offsets). -/
def compFieldVal : ℕ → Component → ℚ
  | 0, c => boolToQ c.connected
  | 1, c => c.temperature
  | 2, c => c.resistance
  | 3, c => c.voltage
  | 4, c => c.current
  | 5, c => (c.attached_to_coolant_loop : ℚ)
  | _, _ => 0

/-- Value written into the engineering block for field fo of a coolant loop
during the populate loop. -/
def coolFieldVal : ℕ → CoolantLoop → ℚ
  | 0, c => c.coolant_temp
  | 1, c => boolToQ c.primary_pump_on
  | 2, c => boolToQ c.secondary_pump_on
  | _, _ => 0

/-- Value written into the engineering block for field fo of a radiator
during the populate loop. -/
def radFieldVal : ℕ → Radiator → ℚ
  | 0, r => (r.attached_to_coolant_loop : ℚ)
  | 1, r => boolToQ r.functioning
  | _, _ => 0

/-- Element j of the engineering block produced by the populate loop of
EngineeringState.__init__ (cold path): components first, then coolant loops,
then radiators, each instance contributing its descriptor fields in order.
The sequential write loop assigns position j exactly the value below. -/
def engVal (ep : EngineeringProto) (j : ℕ) : ℚ :=
  let cEnd := ep.components.length * N_COMPONENT_FIELDS
  let lEnd := cEnd + ep.coolant_loops.length * N_COOLANT_FIELDS
  if j < cEnd then
    compFieldVal (j % N_COMPONENT_FIELDS) (ep.components.getD (j / N_COMPONENT_FIELDS) default)
  else if j < lEnd then
    coolFieldVal ((j - cEnd) % N_COOLANT_FIELDS)
      (ep.coolant_loops.getD ((j - cEnd) / N_COOLANT_FIELDS) default)
  else
    radFieldVal ((j - lEnd) % N_RADIATOR_FIELDS)
      (ep.radiators.getD ((j - lEnd) / N_RADIATOR_FIELDS) default)

/-- Sequential fallible map, the semantics of a Python for loop that stops at
the first raised exception. -/
def mapME {α β : Type} (f : α → Except PyErr β) : List α → Except PyErr (List β)
  | [] => .ok []
  | a :: l => do
    let b ← f a
    let bs ← mapME f l
    .ok (b :: bs)

/-- Helper describing the elementwise protobuf mutation of as_proto: the
first new.length records of orig are replaced by new. -/
def overwriteFirst {α : Type} (orig new : List α) : List α :=
  new ++ orig.drop new.length

/-- Read back one component from the buffer, as the as_proto loop does: the
five electrical fields are overwritten from the buffer, while
attached_to_coolant_loop keeps the snapshot value (it is absent from the
as_proto assignment tuple). -/
def EngineeringState.readComp (es : EngineeringState) (cn : ℕ) : Except PyErr Component := do
  let base := es.proto.components.getD cn default
  let cv : ComponentView := ⟨es, es.compSlice, (cn : ℤ)⟩
  let con ← cv.connected
  let t ← cv.temperature
  let res ← cv.resistance
  let v ← cv.voltage
  let cur ← cv.current
  .ok { base with connected := con, temperature := t, resistance := res,
                  voltage := v, current := cur }

/-- Read back one coolant loop from the buffer, as the as_proto loop does. -/
def EngineeringState.readCoolant (es : EngineeringState) (ln : ℕ) : Except PyErr CoolantLoop := do
  let base := es.proto.coolant_loops.getD ln default
  let cv : CoolantView := ⟨es.coolSlice, (ln : ℤ)⟩
  let t ← cv.coolant_temp
  let p1 ← cv.primary_pump_on
  let p2 ← cv.secondary_pump_on
  .ok { base with coolant_temp := t, primary_pump_on := p1, secondary_pump_on := p2 }

/-- Read back one radiator from the buffer, as the as_proto loop does. -/
def EngineeringState.readRad (es : EngineeringState) (rn : ℕ) : Except PyErr Radiator := do
  let base := es.proto.radiators.getD rn default
  let rv : RadiatorView := ⟨es, es.radSlice, (rn : ℤ)⟩
  let a ← rv.attached_to_coolant_loop
  let f ← rv.functioning
  .ok { base with attached_to_coolant_loop := a, functioning := f }

/-- EngineeringState.as_proto: deep-copies the snapshot and overwrites the
buffer-resident fields of each subsystem record.  Iterating over a list
wrapper object uses the getitem protocol, which stops at the IndexError
raised at the instance count, so each zip walks min(count, snapshot list
length) records. -/
def EngineeringState.as_proto (es : EngineeringState) : Except PyErr EngineeringProto := do
  let comps ← mapME es.readComp (List.range (min es.nC es.proto.components.length))
  let loops ← mapME es.readCoolant (List.range (min es.nL es.proto.coolant_loops.length))
  let rads ← mapME es.readRad (List.range (min es.nR es.proto.radiators.length))
  .ok { es.proto with
        components := overwriteFirst es.proto.components comps,
        coolant_loops := overwriteFirst es.proto.coolant_loops loops,
        radiators := overwriteFirst es.proto.radiators rads }

/-- PhysicsState: owns the flat buffer (_array_rep) and the retained snapshot
(_proto_state).  The subsystem counts are configuration; objId stands for
Python object identity, used by the setitem self-assignment check. -/
structure PhysicsState where
  nC : ℕ
  nL : ℕ
  nR : ℕ
  arr : List ℚ
  proto : PhysicalState
  objId : ℕ
deriving DecidableEq

/-- Number of entities (_n). -/
def PhysicsState.n (s : PhysicsState) : ℕ := s.proto.entities.length

/-- The immutable entity name table (_entity_names). -/
def PhysicsState.entity_names (s : PhysicsState) : List String :=
  s.proto.entities.map Entity.name

/-- The engineering view over the last engFieldCount elements of the buffer
(self.engineering, built over _array_rep sliced at ENGINEERING_START_INDEX). -/
def PhysicsState.engineering (s : PhysicsState) : EngineeringState :=
  ⟨s.nC, s.nL, s.nR,
   s.arr.drop (s.arr.length - engFieldCount s.nC s.nL s.nR),
   s.proto.engineering⟩

/-- PhysicsState._name_to_index: empty name maps to the sentinel, a known
name to its first position in the table, an unknown name raises
NoEntityError. -/
def nameToIndex (names : List String) (nm : String) : Except PyErr ℤ :=
  if nm = "" then .ok NO_INDEX
  else if nm ∈ names then .ok (names.indexOf nm : ℤ)
  else .error (PyErr.noEntity nm)

/-- Pure value of _name_to_index on a resolvable name (empty or present). -/
def landedIdx (names : List String) (nm : String) : ℤ :=
  if nm = "" then NO_INDEX else (names.indexOf nm : ℤ)

/-- Value of the numeric buffer slot of a non-landed_on mutable field, per
the field order table. -/
def pureMutVal : ℕ → Entity → ℚ
  | 0, e => e.x
  | 1, e => e.y
  | 2, e => e.vx
  | 3, e => e.vy
  | 4, e => e.heading
  | 5, e => e.spin
  | 6, e => e.fuel
  | 7, e => e.throttle
  | 9, e => boolToQ e.broken
  | _, _ => 0

/-- Element k of the cold-path buffer before heading normalization.  The
population loop writes slot n * field + row for every mutable field and row
(with landed_on already translated to the entries of landedCol), then the two
singular scalars, then the engineering block; position k therefore holds
exactly the value below. -/
def coldVal (p : PhysicalState) (landedCol : List ℚ) (k : ℕ) : ℚ :=
  let n := p.entities.length
  if k < 10 * n then
    (if k / n = FIELD_ORDER LANDED_ON then landedCol.getD (k % n) 0
     else pureMutVal (k / n) (p.entities.getD (k % n) default))
  else if k = 10 * n then p.srb_time
  else if k = 10 * n + 1 then p.time_acc
  else engVal p.engineering (k - (10 * n + 2))

/-- In-place np.mod(Heading, tau) over the heading column of the buffer:
positions heading-column * n up to (heading-column + 1) * n are replaced by
their floored remainder, everything else is untouched. -/
def normHeading (n : ℕ) (tau : ℚ) (l : List ℚ) : List ℚ :=
  (List.range l.length).map fun k =>
    if FIELD_ORDER "heading" * n ≤ k ∧ k < (FIELD_ORDER "heading" + 1) * n
    then hmod tau (l.getD k 0) else l.getD k 0

/-- PhysicsState.__init__.  Cold path (y = none): translate landed_on names
through the table (first failure raises NoEntityError), check the subsystem
cardinality assertions of EngineeringState.__init__, build and populate the
buffer, check the length assertion, and normalize headings.  Hot path
(y given): read the two singular scalars back out of the buffer (negative
indexing raises IndexError on a buffer shorter than the engineering block
plus two), check the cardinality assertions, check the length assertion, and
normalize headings. -/
def PhysicsState.init (nC nL nR : ℕ) (tau : ℚ) (idv : ℕ)
    (y : Option (List ℚ)) (p : PhysicalState) : Except PyErr PhysicsState :=
  let n := p.entities.length
  let names := p.entities.map Entity.name
  let L := 10 * n + 2 + engFieldCount nC nL nR
  match y with
  | none => do
    let landedCol ← mapME
      (fun e => (nameToIndex names e.landed_on).map (fun z => (z : ℚ))) p.entities
    if p.engineering.components.length ≠ nC then .error .assertError
    else if p.engineering.coolant_loops.length ≠ nL then .error .assertError
    else if p.engineering.radiators.length ≠ nR then .error .assertError
    else
      let arr := (List.range L).map (coldVal p landedCol)
      if arr.length ≠ L then .error .assertError
      else .ok ⟨nC, nL, nR, normHeading n tau arr, p, idv⟩
  | some yv => do
    let srb ← npGet yv (-(engFieldCount nC nL nR : ℤ) - 2)
    let tacc ← npGet yv (-(engFieldCount nC nL nR : ℤ) - 1)
    if p.engineering.components.length ≠ nC then .error .assertError
    else if p.engineering.coolant_loops.length ≠ nL then .error .assertError
    else if p.engineering.radiators.length ≠ nR then .error .assertError
    else if yv.length ≠ L then .error .assertError
    else .ok ⟨nC, nL, nR, normHeading n tau yv,
              { p with srb_time := srb, time_acc := tacc }, idv⟩

/-- PhysicsState._y_component: the whole-column slice
arr seg from order * n to (order + 1) * n for one mutable field. -/
def PhysicsState.ycomp (s : PhysicsState) (nm : String) : List ℚ :=
  (s.arr.drop (FIELD_ORDER nm * s.n)).take s.n

/-- PhysicsState.X, the x column accessor. -/
def PhysicsState.X (s : PhysicsState) : List ℚ := s.ycomp "x"

/-- Numeric mutable-field read of the buffer-aliasing entity view:
arr at n * column + row. -/
def PhysicsState.viewNum (s : PhysicsState) (nm : String) (i : ℤ) : Except PyErr ℚ :=
  npGet s.arr ((s.n : ℤ) * (FIELD_ORDER nm : ℤ) + i)

/-- Boolean mutable-field read of the buffer-aliasing entity view. -/
def PhysicsState.viewBool (s : PhysicsState) (nm : String) (i : ℤ) : Except PyErr Bool :=
  (s.viewNum nm i).map qToBool

/-- Numeric mutable-field write through the buffer-aliasing entity view:
assigns arr at n * column + row and returns the updated container. -/
def PhysicsState.viewSetNum (s : PhysicsState) (nm : String) (i : ℤ) (v : ℚ) :
    Except PyErr PhysicsState :=
  (npSet s.arr ((s.n : ℤ) * (FIELD_ORDER nm : ℤ) + i) v).map
    (fun a => { s with arr := a })

/-- landed_on read of the buffer-aliasing entity view: int() of the slot,
sentinel becomes the empty string, otherwise the name table is indexed
(Python list indexing, so negative values wrap). -/
def PhysicsState.landedGet (s : PhysicsState) (i : ℤ) : Except PyErr String := do
  let v ← s.viewNum LANDED_ON i
  if pyInt v = NO_INDEX then .ok ""
  else npGet s.entity_names (pyInt v)

/-- landed_on write of the buffer-aliasing entity view: the name is
translated through _name_to_index (NoEntityError on an unknown name) and the
resulting index is stored as a float. -/
def PhysicsState.landedSet (s : PhysicsState) (i : ℤ) (nm : String) :
    Except PyErr PhysicsState := do
  let idx ← nameToIndex s.entity_names nm
  (npSet s.arr ((s.n : ℤ) * (FIELD_ORDER LANDED_ON : ℤ) + i) (idx : ℚ)).map
    (fun a => { s with arr := a })

/-- An index into the container: either an entity name or an integer. -/
inductive PyIndex where
  | str (nm : String)
  | int (i : ℤ)
deriving DecidableEq

/-- Name or integer index resolution shared by getitem and setitem: a string
is looked up in the name table (ValueError when absent), an integer passes
through unchecked. -/
def PhysicsState.resolveIndex (s : PhysicsState) : PyIndex → Except PyErr ℤ
  | .str nm =>
    if nm ∈ s.entity_names then .ok (s.entity_names.indexOf nm : ℤ)
    else .error .valueError
  | .int i => .ok i

/-- The buffer-aliasing _EntityView: a parent reference plus a row index.
The parent is carried by value; its objId models the Python object identity
that setitem compares. -/
structure EntityView where
  creator : PhysicsState
  index : ℤ
deriving DecidableEq

/-- PhysicsState.__getitem__: resolves the index and returns a view.  There
is no bounds check on the integer path. -/
def PhysicsState.getitem (s : PhysicsState) (index : PyIndex) : Except PyErr EntityView :=
  (s.resolveIndex index).map (fun i => ⟨s, i⟩)

/-- The right-hand side of a whole-row assignment: either a buffer-aliasing
view or a standalone Entity record. -/
inductive EntityArg where
  | view (v : EntityView)
  | plain (e : Entity)
deriving DecidableEq

/-- The tuple of mutable-field values read from the assignment source before
the writes happen. -/
structure MutFields where
  x : ℚ
  y : ℚ
  vx : ℚ
  vy : ℚ
  heading : ℚ
  spin : ℚ
  fuel : ℚ
  throttle : ℚ
  landed_on : String
  broken : Bool
deriving DecidableEq

/-- Evaluation of the right-hand-side tuple of __setitem__: a plain Entity
yields its record fields, a view reads through its own creator. -/
def EntityArg.fields : EntityArg → Except PyErr MutFields
  | .plain e => .ok ⟨e.x, e.y, e.vx, e.vy, e.heading, e.spin, e.fuel,
                     e.throttle, e.landed_on, e.broken⟩
  | .view v => do
    let xv ← v.creator.viewNum "x" v.index
    let yv ← v.creator.viewNum "y" v.index
    let vxv ← v.creator.viewNum "vx" v.index
    let vyv ← v.creator.viewNum "vy" v.index
    let hv ← v.creator.viewNum "heading" v.index
    let sv ← v.creator.viewNum "spin" v.index
    let fv ← v.creator.viewNum "fuel" v.index
    let tv ← v.creator.viewNum "throttle" v.index
    let lo ← v.creator.landedGet v.index
    let br ← v.creator.viewBool "broken" v.index
    .ok ⟨xv, yv, vxv, vyv, hv, sv, fv, tv, lo, br⟩

/-- The field-by-field copy performed by __setitem__ when the source is not
a view of the same container: resolve the index, evaluate the source tuple,
then write every mutable field through the row view. -/
def PhysicsState.setitemCopy (s : PhysicsState) (index : PyIndex) (val : EntityArg) :
    Except PyErr PhysicsState := do
  let i ← s.resolveIndex index
  let f ← val.fields
  let nz : ℤ := (s.n : ℤ)
  let a0 ← npSet s.arr (nz * 0 + i) f.x
  let a1 ← npSet a0 (nz * 1 + i) f.y
  let a2 ← npSet a1 (nz * 2 + i) f.vx
  let a3 ← npSet a2 (nz * 3 + i) f.vy
  let a4 ← npSet a3 (nz * 4 + i) f.heading
  let a5 ← npSet a4 (nz * 5 + i) f.spin
  let a6 ← npSet a5 (nz * 6 + i) f.fuel
  let a7 ← npSet a6 (nz * 7 + i) f.throttle
  let li ← nameToIndex s.entity_names f.landed_on
  let a8 ← npSet a7 (nz * 8 + i) (li : ℚ)
  let a9 ← npSet a8 (nz * 9 + i) (boolToQ f.broken)
  .ok { s with arr := a9 }

/-- PhysicsState.__setitem__: when the source is an _EntityView whose creator
is this very container, return immediately without touching the buffer; the
check looks only at the creator, never at the row the view aliases.
Otherwise fall through to the field-by-field copy. -/
def PhysicsState.setitem (s : PhysicsState) (index : PyIndex) (val : EntityArg) :
    Except PyErr PhysicsState :=
  match val with
  | .view v => if v.creator.objId = s.objId then .ok s else s.setitemCopy index val
  | .plain _ => s.setitemCopy index val

/-- PhysicsState.craft: the currently controlled craft.  None when neither
craft name is present; Habitat when AYSE is absent; otherwise both name
lookups run and the landed_on slot of the Habitat row picks AYSE when it
stores the AYSE index. -/
def PhysicsState.craft (s : PhysicsState) : Except PyErr (Option String) :=
  if HABITAT ∉ s.entity_names ∧ AYSE ∉ s.entity_names then .ok none
  else if AYSE ∉ s.entity_names then .ok (some HABITAT)
  else do
    let habIdx ← nameToIndex s.entity_names HABITAT
    let ayseIdx ← nameToIndex s.entity_names AYSE
    let lv ← npGet (s.ycomp LANDED_ON) habIdx
    if lv = (ayseIdx : ℚ) then .ok (some AYSE) else .ok (some HABITAT)

/-- One step of the as_proto loop: the snapshot record of row i with all ten
mutable fields overwritten from the buffer through the row view. -/
def PhysicsState.readEntityRow (s : PhysicsState) (i : ℕ) : Except PyErr Entity := do
  let base := s.proto.entities.getD i default
  let xv ← s.viewNum "x" i
  let yv ← s.viewNum "y" i
  let vxv ← s.viewNum "vx" i
  let vyv ← s.viewNum "vy" i
  let hv ← s.viewNum "heading" i
  let sv ← s.viewNum "spin" i
  let fv ← s.viewNum "fuel" i
  let tv ← s.viewNum "throttle" i
  let lo ← s.landedGet i
  let br ← s.viewBool "broken" i
  .ok { base with x := xv, y := yv, vx := vxv, vy := vyv, heading := hv,
                  spin := sv, fuel := fv, throttle := tv, landed_on := lo,
                  broken := br }

/-- PhysicsState.as_proto: a deep copy of the snapshot whose entity records
get their mutable fields from the buffer and whose engineering message is
rebuilt by EngineeringState.as_proto. -/
def PhysicsState.as_proto (s : PhysicsState) : Except PyErr PhysicalState := do
  let ents ← mapME s.readEntityRow (List.range s.n)
  let eng ← s.engineering.as_proto
  .ok { s.proto with entities := ents, engineering := eng }

/-- The expected transformation of a snapshot under a cold-path round trip:
every heading is replaced by its normalized value, nothing else changes. -/
def normState (tau : ℚ) (p : PhysicalState) : PhysicalState :=
  { p with entities :=
      p.entities.map (fun e => { e with heading := hmod tau e.heading }) }

/-- Well-formedness of a container: the buffer has exactly the length the
construction invariant demands. -/
def PhysicsState.WF (s : PhysicsState) : Prop :=
  s.arr.length = 10 * s.n + 2 + engFieldCount s.nC s.nL s.nR

instance (s : PhysicsState) : Decidable s.WF := by
  unfold PhysicsState.WF; infer_instance

theorem exc_ok_bind {α β : Type} (a : α) (f : α → Except PyErr β) :
    (Except.ok a >>= f) = f a := rfl

theorem exc_error_bind {α β : Type} (e : PyErr) (f : α → Except PyErr β) :
    ((Except.error e : Except PyErr α) >>= f) = .error e := rfl

theorem exc_map_ok {α β : Type} (a : α) (f : α → β) :
    (Except.ok a : Except PyErr α).map f = .ok (f a) := rfl

theorem exc_map_error {α β : Type} (e : PyErr) (f : α → β) :
    (Except.error e : Except PyErr α).map f = .error e := rfl

/-- Successful numpy read at an in-range nonnegative index. -/
theorem npGet_natCast {α : Type} (l : List α) (k : ℕ) (h : k < l.length) :
    npGet l (k : ℤ) = .ok (l.get ⟨k, h⟩) := by
  have h1 : ¬((k : ℤ) < 0) := by omega
  have h2 : (0 : ℤ) ≤ (k : ℤ) ∧ (k : ℤ) < (l.length : ℤ) := by omega
  simp [npGet, h1, h2]

/-- General successful numpy read: the wrapped index resolves to position
k. -/
theorem npGet_eq_ok {α : Type} (l : List α) (i : ℤ) (k : ℕ) (hk : k < l.length)
    (hik : (if i < 0 then i + l.length else i) = (k : ℤ)) :
    npGet l i = .ok (l.get ⟨k, hk⟩) := by
  by_cases hneg : i < 0
  · rw [if_pos hneg] at hik
    have h2 : (0 : ℤ) ≤ i + l.length ∧ i + l.length < (l.length : ℤ) := by omega
    have h3 : (i + (l.length : ℤ)).toNat = k := by omega
    simp only [npGet, if_pos hneg, dif_pos h2, h3]
  · rw [if_neg hneg] at hik
    subst hik
    exact npGet_natCast l k hk

/-- Successful numpy write at an in-range nonnegative index. -/
theorem npSet_natCast {α : Type} (l : List α) (k : ℕ) (v : α) (h : k < l.length) :
    npSet l (k : ℤ) v = .ok (l.set k v) := by
  have h1 : ¬((k : ℤ) < 0) := by omega
  have h2 : (0 : ℤ) ≤ (k : ℤ) ∧ (k : ℤ) < (l.length : ℤ) := by omega
  simp [npSet, h1, h2]

theorem pyInt_intCast (z : ℤ) : pyInt (z : ℚ) = z := by
  simp [pyInt, Rat.num_intCast, Rat.den_intCast]

theorem qToBool_boolToQ (b : Bool) : qToBool (boolToQ b) = b := by
  cases b <;> simp [qToBool, boolToQ]

theorem hmod_nonneg (tau h : ℚ) (ht : 0 < tau) : 0 ≤ hmod tau h := by
  have h1 := Int.floor_le (h / tau)
  have h2 : tau * (h / tau) = h := mul_div_cancel₀ h (ne_of_gt ht)
  have h3 := mul_le_mul_of_nonneg_left h1 (le_of_lt ht)
  simp only [hmod]
  nlinarith

theorem hmod_lt (tau h : ℚ) (ht : 0 < tau) : hmod tau h < tau := by
  have h2 := Int.lt_floor_add_one (h / tau)
  have h3 : tau * (h / tau) = h := mul_div_cancel₀ h (ne_of_gt ht)
  have h4 := mul_lt_mul_of_pos_left h2 ht
  simp only [hmod]
  nlinarith

/-- mapME turns into an ordinary map when every element read succeeds. -/
theorem mapME_ok {α β : Type} (f : α → Except PyErr β) (g : α → β) :
    ∀ l : List α, (∀ a ∈ l, f a = .ok (g a)) → mapME f l = .ok (l.map g)
  | [], _ => rfl
  | a :: l, h => by
    have ha := h a (by simp)
    have hl := mapME_ok f g l (fun b hb => h b (by simp [hb]))
    simp only [mapME, ha, exc_ok_bind, hl, List.map_cons]

theorem FIELD_ORDER_x : FIELD_ORDER "x" = 0 := rfl

theorem FIELD_ORDER_heading : FIELD_ORDER "heading" = 4 := rfl

theorem FIELD_ORDER_landed : FIELD_ORDER LANDED_ON = 8 := rfl

/-- Concrete fixtures shared by witnesses and counterexamples. -/
def habEnt : Entity :=
  ⟨"Habitat", 1, 2, true, 0, 0, 10, 11, 12, 13, 7, 14, 15, 1, "Earth", true⟩

def earthEnt : Entity :=
  ⟨"Earth", 100, 200, false, 3, 4, 0, 1, 2, 3, 5, 6, 0, 0, "", false⟩

def ayseEnt : Entity :=
  ⟨"AYSE", 5, 6, true, 0, 0, 20, 21, 22, 23, 9, 24, 25, 0, "", false⟩

def compFix : Component := ⟨true, 50, 2, 120, 3, 1⟩

def loopFix : CoolantLoop := ⟨20, true, false⟩

def radFix : Radiator := ⟨1, true⟩

def engFix : EngineeringProto :=
  ⟨[compFix], [loopFix], [radFix], false, true, false, false, false, true⟩

def engEmpty : EngineeringProto :=
  ⟨[], [], [], false, false, false, false, false, false⟩

def pFix : PhysicalState :=
  ⟨[habEnt, earthEnt], 9, 77, 50, true, "Earth", "Habitat", 0, engFix⟩

def pOne : PhysicalState :=
  ⟨[earthEnt], 9, 77, 50, false, "", "", 0, engEmpty⟩

def pAyse : PhysicalState :=
  ⟨[ayseEnt], 9, 77, 50, false, "", "", 0, engEmpty⟩

def pEmpty : PhysicalState :=
  ⟨[], 0, 0, 0, false, "", "", 0, engEmpty⟩

def sFix : PhysicsState :=
  ⟨0, 0, 0, List.replicate 12 0, pOne, 7⟩

def esFix5 : EngineeringState :=
  ⟨0, 2, 1, [10, 0, 0, 99, 0, 0, 0, 1], engEmpty⟩

def esFix6 : EngineeringState :=
  ⟨1, 2, 1, [1, 50, 2, 120, 3, 2, 10, 0, 0, 99, 1, 0, 2, 1], engEmpty⟩

/-- C8: assigning a row of a container from the entity view obtained from the
same container at the same valid row is a complete no-op: the container,
buffer included, is returned bitwise unchanged, because the assignment short
circuits on the identity of the creator of the view. -/
theorem C8_self_assignment_noop (s : PhysicsState) (i : ℕ) (hi : i < s.n) :
    s.getitem (.int (i : ℤ)) = .ok ⟨s, (i : ℤ)⟩ ∧
    s.setitem (.int (i : ℤ)) (.view ⟨s, (i : ℤ)⟩) = .ok s := by
  exact ⟨rfl, by simp [PhysicsState.setitem]⟩

theorem C8_self_assignment_noop_witness :
    sFix.getitem (.int ((0 : ℕ) : ℤ)) = .ok ⟨sFix, ((0 : ℕ) : ℤ)⟩ ∧
    sFix.setitem (.int ((0 : ℕ) : ℤ)) (.view ⟨sFix, ((0 : ℕ) : ℤ)⟩) = .ok sFix :=
  C8_self_assignment_noop sFix 0 (by decide)

/-- C10: the no-op detection of setitem compares only the creator of the
source view with the target container, never the row the view aliases, so
assigning row i from a view of any row j of the same container leaves the
whole buffer unchanged and copies nothing. -/
theorem C10_setitem_ignores_view_row (s : PhysicsState) (i : ℕ) (j : ℤ) (hi : i < s.n) :
    s.getitem (.int j) = .ok ⟨s, j⟩ ∧
    s.setitem (.int (i : ℤ)) (.view ⟨s, j⟩) = .ok s := by
  exact ⟨rfl, by simp [PhysicsState.setitem]⟩

theorem C10_setitem_ignores_view_row_witness :
    sFix.getitem (.int 1) = .ok ⟨sFix, 1⟩ ∧
    sFix.setitem (.int ((0 : ℕ) : ℤ)) (.view ⟨sFix, 1⟩) = .ok sFix :=
  C10_setitem_ignores_view_row sFix 0 1 (by decide)

/-- C4 counterexample: out-of-range integer lookups do not all raise.  The
entity collection of a container built over one entity returns a view for
index 5 without any bounds error, and the component collection returns a
view for the negative index -1. -/
theorem C4_counterexample :
    pOne.entities.length = 1 ∧
    ((PhysicsState.init 0 0 0 1 0 none pOne) >>=
      (fun s => s.getitem (.int 5))).isOk = true ∧
    esFix6.nC = 1 ∧
    (esFix6.componentsGet (-1)).isOk = true := by
  refine ⟨rfl, ?_, rfl, rfl⟩
  rfl

/-- C4 amended: integer lookup into the entity collection never raises and
always returns a view, whatever the index; integer lookup into the
engineering collections raises IndexError exactly when the index is at least
the collection count, so negative integers are handed to the view
unchecked. -/
theorem C4_bounds_amended (s : PhysicsState) (es : EngineeringState) (i : ℤ) :
    s.getitem (.int i) = .ok ⟨s, i⟩ ∧
    es.componentsGet i =
      (if i ≥ (es.nC : ℤ) then .error .indexError else .ok ⟨es, es.compSlice, i⟩) ∧
    es.coolantLoopsGet i =
      (if i ≥ (es.nL : ℤ) then .error .indexError else .ok ⟨es.coolSlice, i⟩) ∧
    es.radiatorsGet i =
      (if i ≥ (es.nR : ℤ) then .error .indexError else .ok ⟨es, es.radSlice, i⟩) :=
  ⟨rfl, rfl, rfl, rfl⟩

/-- C5 counterexample: dereferencing an unattached coolant-loop reference
(stored value 0) does not abort.  On a concrete engineering state with two
coolant loops, get_coolant_loop on the radiator whose stored reference is 0
returns the coolant view at index -1, and reading its temperature yields the
temperature of the last loop. -/
theorem C5_counterexample :
    npGet esFix5.radSlice 0 = .ok 0 ∧
    ((esFix5.radiatorsGet 0) >>= RadiatorView.get_coolant_loop) =
      .ok ⟨esFix5.coolSlice, -1⟩ ∧
    CoolantView.coolant_temp ⟨esFix5.coolSlice, -1⟩ = .ok 99 := by
  refine ⟨?_, ?_, ?_⟩ <;> rfl

/-- C5 amended: get_coolant_loop on a subsystem whose stored reference is 0
returns the coolant view at index -1 instead of raising; through the numpy
negative-index wraparound that view aliases the last coolant loop of the
collection. -/
theorem C5_unattached_deref_amended (es : EngineeringState) (rn : ℤ)
    (hread : npGet es.radSlice (rn * (N_RADIATOR_FIELDS : ℤ) + 0) = .ok 0) :
    RadiatorView.get_coolant_loop ⟨es, es.radSlice, rn⟩ = .ok ⟨es.coolSlice, -1⟩ ∧
    (1 ≤ es.nL → es.coolSlice.length = es.nL * N_COOLANT_FIELDS →
      CoolantView.coolant_temp ⟨es.coolSlice, -1⟩ =
        CoolantView.coolant_temp ⟨es.coolSlice, (es.nL : ℤ) - 1⟩) := by
  constructor
  · have hz : pyInt 0 = 0 := by decide
    simp only [RadiatorView.get_coolant_loop, RadiatorView.attached_to_coolant_loop,
      hread, exc_map_ok, hz, exc_ok_bind, EngineeringState.coolantLoopsGet]
    have : ¬((0 : ℤ) - 1 ≥ (es.nL : ℤ)) := by omega
    rw [if_neg this]
    norm_num
  · intro h1 h2
    have hlt : es.nL * N_COOLANT_FIELDS - 3 < es.coolSlice.length := by
      simp only [N_COOLANT_FIELDS] at h2 ⊢
      omega
    have e1 : CoolantView.coolant_temp ⟨es.coolSlice, -1⟩ =
        .ok (es.coolSlice.get ⟨es.nL * N_COOLANT_FIELDS - 3, hlt⟩) := by
      apply npGet_eq_ok
      simp only [N_COOLANT_FIELDS] at h2 ⊢
      rw [if_pos (by omega)]
      omega
    have e2 : CoolantView.coolant_temp ⟨es.coolSlice, (es.nL : ℤ) - 1⟩ =
        .ok (es.coolSlice.get ⟨es.nL * N_COOLANT_FIELDS - 3, hlt⟩) := by
      apply npGet_eq_ok
      simp only [N_COOLANT_FIELDS] at h2 ⊢
      rw [if_neg (by omega)]
      omega
    rw [e1, e2]

theorem C5_unattached_deref_amended_witness :
    RadiatorView.get_coolant_loop ⟨esFix5, esFix5.radSlice, 0⟩ =
      .ok ⟨esFix5.coolSlice, -1⟩ ∧
    CoolantView.coolant_temp ⟨esFix5.coolSlice, -1⟩ =
      CoolantView.coolant_temp ⟨esFix5.coolSlice, (esFix5.nL : ℤ) - 1⟩ :=
  ⟨(C5_unattached_deref_amended esFix5 0 (by decide)).1,
   (C5_unattached_deref_amended esFix5 0 (by decide)).2 (by decide) (by decide)⟩

/-- C6: a stored coolant-loop reference k with 1 <= k <= loop count resolves
through get_coolant_loop, on radiators and on components alike, to exactly
the coolant view the collection hands out at position k - 1. -/
theorem C6_coolant_reference_resolution (es : EngineeringState) (rn cn k : ℤ)
    (hk1 : 1 ≤ k) (hk2 : k ≤ (es.nL : ℤ))
    (hr : npGet es.radSlice (rn * (N_RADIATOR_FIELDS : ℤ) + 0) = .ok (k : ℚ))
    (hc : npGet es.compSlice (cn * (N_COMPONENT_FIELDS : ℤ) + 5) = .ok (k : ℚ)) :
    RadiatorView.get_coolant_loop ⟨es, es.radSlice, rn⟩ = es.coolantLoopsGet (k - 1) ∧
    ComponentView.get_coolant_loop ⟨es, es.compSlice, cn⟩ = es.coolantLoopsGet (k - 1) ∧
    es.coolantLoopsGet (k - 1) = .ok ⟨es.coolSlice, k - 1⟩ := by
  have hneg : ¬(k - 1 ≥ (es.nL : ℤ)) := by omega
  refine ⟨?_, ?_, ?_⟩
  · simp only [RadiatorView.get_coolant_loop, RadiatorView.attached_to_coolant_loop,
      hr, exc_map_ok, pyInt_intCast, exc_ok_bind]
  · simp only [ComponentView.get_coolant_loop, ComponentView.attached_to_coolant_loop,
      hc, exc_map_ok, pyInt_intCast, exc_ok_bind]
  · simp only [EngineeringState.coolantLoopsGet, if_neg hneg]

theorem C6_coolant_reference_resolution_witness :
    RadiatorView.get_coolant_loop ⟨esFix6, esFix6.radSlice, 0⟩ =
      esFix6.coolantLoopsGet (2 - 1) ∧
    ComponentView.get_coolant_loop ⟨esFix6, esFix6.compSlice, 0⟩ =
      esFix6.coolantLoopsGet (2 - 1) ∧
    esFix6.coolantLoopsGet (2 - 1) = .ok ⟨esFix6.coolSlice, 2 - 1⟩ :=
  C6_coolant_reference_resolution esFix6 0 0 2 (by decide) (by decide)
    (by decide) (by decide)

/-- C9: handing the hot-path construction a buffer whose length differs from
the invariant entity count times mutable field count plus two singular
scalars plus engineering field count always raises (either the IndexError of
the singular-scalar reads on a very short buffer, or an AssertionError), and
no container is produced. -/
theorem C9_length_invariant (nC nL nR idv : ℕ) (tau : ℚ) (yv : List ℚ)
    (p : PhysicalState)
    (h : yv.length ≠ 10 * p.entities.length + 2 + engFieldCount nC nL nR) :
    ∃ e, PhysicsState.init nC nL nR tau idv (some yv) p = .error e := by
  simp only [PhysicsState.init]
  cases h1 : npGet yv (-(engFieldCount nC nL nR : ℤ) - 2) with
  | error e => exact ⟨e, rfl⟩
  | ok srb =>
    cases h2 : npGet yv (-(engFieldCount nC nL nR : ℤ) - 1) with
    | error e => exact ⟨e, rfl⟩
    | ok tacc =>
      simp only [exc_ok_bind]
      by_cases hc : p.engineering.components.length ≠ nC
      · exact ⟨.assertError, by rw [if_pos hc]⟩
      · rw [if_neg hc]
        by_cases hl : p.engineering.coolant_loops.length ≠ nL
        · exact ⟨.assertError, by rw [if_pos hl]⟩
        · rw [if_neg hl]
          by_cases hr : p.engineering.radiators.length ≠ nR
          · exact ⟨.assertError, by rw [if_pos hr]⟩
          · rw [if_neg hr]
            exact ⟨.assertError, by rw [if_pos h]⟩

theorem C9_length_invariant_witness :
    ∃ e, PhysicsState.init 0 0 0 1 0 (some [1]) pEmpty = .error e :=
  C9_length_invariant 0 0 0 0 1 [1] pEmpty (by decide)

/-- Lookup into a take-prefix agrees with the underlying list. -/
theorem npGet_take {α : Type} (l : List α) (m k : ℕ) (hk : k < m) (hl : k < l.length) :
    npGet (l.take m) (k : ℤ) = .ok (l.get ⟨k, hl⟩) := by
  have hlen : k < (l.take m).length := by
    simp only [List.length_take]
    omega
  rw [npGet_natCast _ k hlen]
  congr 1
  simp [List.get_eq_getElem, List.getElem_take]

/-- C2: writing field x through the row view of a well-formed container at a
valid row makes the written value visible at position i of the whole-column
accessor X and through a freshly obtained view of the same row. -/
theorem C2_aliasing (s : PhysicsState) (i : ℕ) (v : ℚ) (hwf : s.WF) (hi : i < s.n) :
    ∃ s2, s.viewSetNum "x" (i : ℤ) v = .ok s2 ∧
      npGet s2.X (i : ℤ) = .ok v ∧
      s2.getitem (.int (i : ℤ)) = .ok ⟨s2, (i : ℤ)⟩ ∧
      s2.viewNum "x" (i : ℤ) = .ok v := by
  have hlen : i < s.arr.length := by
    unfold PhysicsState.WF at hwf
    omega
  have hidx : (s.n : ℤ) * ((FIELD_ORDER "x" : ℕ) : ℤ) + (i : ℤ) = ((i : ℕ) : ℤ) := by
    rw [FIELD_ORDER_x]
    simp
  have hlen2 : i < (s.arr.set i v).length := by
    simp only [List.length_set]
    exact hlen
  have hget : (s.arr.set i v).get ⟨i, hlen2⟩ = v := by
    simp [List.get_eq_getElem, List.getElem_set_self]
  refine ⟨{ s with arr := s.arr.set i v }, ?_, ?_, rfl, ?_⟩
  · unfold PhysicsState.viewSetNum
    rw [hidx, npSet_natCast s.arr i v hlen, exc_map_ok]
  · unfold PhysicsState.X PhysicsState.ycomp
    have hn : PhysicsState.n { s with arr := s.arr.set i v } = s.n := rfl
    rw [hn, FIELD_ORDER_x]
    simp only [Nat.zero_mul, List.drop_zero]
    rw [npGet_take _ s.n i hi hlen2, hget]
  · unfold PhysicsState.viewNum
    have hn : PhysicsState.n { s with arr := s.arr.set i v } = s.n := rfl
    rw [hn, hidx, npGet_natCast _ i hlen2, hget]

theorem C2_aliasing_witness :
    ∃ s2, sFix.viewSetNum "x" ((0 : ℕ) : ℤ) 7 = .ok s2 ∧
      npGet s2.X ((0 : ℕ) : ℤ) = .ok 7 ∧
      s2.getitem (.int ((0 : ℕ) : ℤ)) = .ok ⟨s2, ((0 : ℕ) : ℤ)⟩ ∧
      s2.viewNum "x" ((0 : ℕ) : ℤ) = .ok 7 :=
  C2_aliasing sFix 0 7 (by decide) (by decide)

/-- The row count equals the length of the name table. -/
theorem entity_names_length (s : PhysicsState) : s.entity_names.length = s.n := by
  simp [PhysicsState.entity_names, PhysicsState.n]

/-- C7: on a well-formed container and valid row, setting landed_on to a name
present in the table and reading it back returns that very name; setting it
to the empty string reads back as the empty string; setting it to a name
absent from the table raises NoEntityError. -/
theorem C7_landed_translation (s : PhysicsState) (i : ℕ) (nm : String)
    (hwf : s.WF) (hi : i < s.n) :
    (nm ∈ s.entity_names → ∃ s2, s.landedSet (i : ℤ) nm = .ok s2 ∧
        s2.landedGet (i : ℤ) = .ok nm) ∧
    (∃ s3, s.landedSet (i : ℤ) "" = .ok s3 ∧ s3.landedGet (i : ℤ) = .ok "") ∧
    (nm ∉ s.entity_names → nm ≠ "" →
        s.landedSet (i : ℤ) nm = .error (.noEntity nm)) := by
  have hk : 8 * s.n + i < s.arr.length := by
    unfold PhysicsState.WF at hwf
    omega
  have hidx : (s.n : ℤ) * ((FIELD_ORDER LANDED_ON : ℕ) : ℤ) + (i : ℤ) =
      ((8 * s.n + i : ℕ) : ℤ) := by
    rw [FIELD_ORDER_landed]
    push_cast
    ring
  -- a generic description of set-then-get at the landed_on slot
  have key : ∀ z : ℤ,
      ∀ s2, s2 = { s with arr := s.arr.set (8 * s.n + i) ((z : ℚ)) } →
      (npSet s.arr ((s.n : ℤ) * ((FIELD_ORDER LANDED_ON : ℕ) : ℤ) + (i : ℤ))
          ((z : ℚ))).map (fun a => { s with arr := a }) = .ok s2 ∧
      s2.viewNum LANDED_ON (i : ℤ) = .ok ((z : ℚ)) := by
    intro z s2 hs2
    have hlen2 : 8 * s.n + i < (s.arr.set (8 * s.n + i) ((z : ℚ))).length := by
      simp only [List.length_set]
      exact hk
    constructor
    · rw [hidx, npSet_natCast s.arr _ _ hk, exc_map_ok, hs2]
    · unfold PhysicsState.viewNum
      have hn : s2.n = s.n := by rw [hs2]; rfl
      have ha : s2.arr = s.arr.set (8 * s.n + i) ((z : ℚ)) := by rw [hs2]
      rw [hn, ha, hidx, npGet_natCast _ _ hlen2]
      congr 1
      simp [List.get_eq_getElem, List.getElem_set_self]
  refine ⟨?_, ?_, ?_⟩
  · intro hmem
    by_cases hemp : nm = ""
    · subst hemp
      refine ⟨{ s with arr := s.arr.set (8 * s.n + i) ((NO_INDEX : ℚ)) }, ?_, ?_⟩
      · unfold PhysicsState.landedSet nameToIndex
        rw [if_pos rfl, exc_ok_bind]
        exact (key NO_INDEX _ rfl).1
      · unfold PhysicsState.landedGet
        rw [(key NO_INDEX _ rfl).2, exc_ok_bind, pyInt_intCast]
        rw [if_pos rfl]
    · have hidxOf : s.entity_names.indexOf nm < s.entity_names.length :=
        List.indexOf_lt_length.2 hmem
      refine ⟨{ s with arr := s.arr.set (8 * s.n + i) (((s.entity_names.indexOf nm : ℤ) : ℚ)) }, ?_, ?_⟩
      · unfold PhysicsState.landedSet nameToIndex
        rw [if_neg hemp, if_pos hmem, exc_ok_bind]
        exact (key (s.entity_names.indexOf nm : ℤ) _ rfl).1
      · unfold PhysicsState.landedGet
        rw [(key (s.entity_names.indexOf nm : ℤ) _ rfl).2, exc_ok_bind, pyInt_intCast]
        have hne : ((s.entity_names.indexOf nm : ℤ)) ≠ NO_INDEX := by
          unfold NO_INDEX
          omega
        rw [if_neg hne]
        have hnames : PhysicsState.entity_names
            { s with arr :=
              s.arr.set (8 * s.n + i) (((s.entity_names.indexOf nm : ℤ) : ℚ)) } =
            s.entity_names := rfl
        rw [hnames, npGet_natCast _ _ hidxOf]
        congr 1
        exact List.indexOf_get hidxOf
  · refine ⟨{ s with arr := s.arr.set (8 * s.n + i) ((NO_INDEX : ℚ)) }, ?_, ?_⟩
    · unfold PhysicsState.landedSet nameToIndex
      rw [if_pos rfl, exc_ok_bind]
      exact (key NO_INDEX _ rfl).1
    · unfold PhysicsState.landedGet
      rw [(key NO_INDEX _ rfl).2, exc_ok_bind, pyInt_intCast]
      rw [if_pos rfl]
  · intro hnot hemp
    unfold PhysicsState.landedSet nameToIndex
    rw [if_neg hemp, if_neg hnot]
    rfl

theorem C7_landed_translation_witness :
    ("Earth" ∈ sFix.entity_names ∧
      ∃ s2, sFix.landedSet ((0 : ℕ) : ℤ) "Earth" = .ok s2 ∧
        s2.landedGet ((0 : ℕ) : ℤ) = .ok "Earth") ∧
    (∃ s3, sFix.landedSet ((0 : ℕ) : ℤ) "" = .ok s3 ∧
        s3.landedGet ((0 : ℕ) : ℤ) = .ok "") ∧
    sFix.landedSet ((0 : ℕ) : ℤ) "Pluto" = .error (.noEntity "Pluto") :=
  ⟨⟨by decide, (C7_landed_translation sFix 0 "Earth" (by decide) (by decide)).1 (by decide)⟩,
   (C7_landed_translation sFix 0 "" (by decide) (by decide)).2.1,
   (C7_landed_translation sFix 0 "Pluto" (by decide) (by decide)).2.2 (by decide) (by decide)⟩

/-- Successful numpy read expressed through getD. -/
theorem npGet_getD {α : Type} (l : List α) (k : ℕ) (h : k < l.length) (d : α) :
    npGet l (k : ℤ) = .ok (l.getD k d) := by
  rw [npGet_natCast l k h]
  congr 1
  simp [List.getD_eq_getElem?_getD, List.getElem?_eq_getElem h, List.get_eq_getElem]

/-- Column slices of a well-formed container have one slot per entity. -/
theorem ycomp_length (s : PhysicsState) (nm : String) (hwf : s.WF)
    (hf : FIELD_ORDER nm ≤ 9) :
    (s.ycomp nm).length = s.n := by
  unfold PhysicsState.WF at hwf
  unfold PhysicsState.ycomp
  simp only [List.length_take, List.length_drop]
  unfold engFieldCount N_COMPONENT_FIELDS N_COOLANT_FIELDS N_RADIATOR_FIELDS at hwf
  have hb : FIELD_ORDER nm * s.n ≤ 9 * s.n := Nat.mul_le_mul_right _ hf
  omega

/-- C3 counterexample: on a container whose only entity is AYSE, the craft
accessor does not fall back to the primary craft or to none, as the claimed
resolution rule would demand: it raises NoEntityError for Habitat. -/
theorem C3_craft_counterexample :
    (PhysicsState.init 0 0 0 1 0 none pAyse).isOk = true ∧
    ((PhysicsState.init 0 0 0 1 0 none pAyse) >>= PhysicsState.craft) =
      .error (.noEntity HABITAT) := by
  constructor
  · rfl
  · rfl

/-- C3 amended: the craft accessor returns none when neither craft name is
present, the primary craft when the secondary is absent, and, when both are
present, the secondary craft exactly when the landed_on slot of the primary
craft stores the index of the secondary; but when the secondary craft is
present while the primary is absent, it raises NoEntityError instead of
resolving. -/
theorem C3_craft_resolution_amended (s : PhysicsState) (hwf : s.WF) :
    s.craft =
      (if HABITAT ∉ s.entity_names ∧ AYSE ∉ s.entity_names then .ok none
       else if AYSE ∉ s.entity_names then .ok (some HABITAT)
       else if HABITAT ∉ s.entity_names then .error (.noEntity HABITAT)
       else if (s.ycomp LANDED_ON).getD (s.entity_names.indexOf HABITAT) 0 =
           ((s.entity_names.indexOf AYSE : ℤ) : ℚ) then .ok (some AYSE)
       else .ok (some HABITAT)) := by
  unfold PhysicsState.craft
  by_cases h1 : HABITAT ∉ s.entity_names ∧ AYSE ∉ s.entity_names
  · rw [if_pos h1, if_pos h1]
  · rw [if_neg h1, if_neg h1]
    by_cases h2 : AYSE ∉ s.entity_names
    · rw [if_pos h2, if_pos h2]
    · rw [if_neg h2, if_neg h2]
      have hayse : AYSE ∈ s.entity_names := not_not.mp h2
      have hne1 : ¬(HABITAT = "") := by decide
      have hne2 : ¬(AYSE = "") := by decide
      by_cases h3 : HABITAT ∉ s.entity_names
      · rw [if_pos h3]
        unfold nameToIndex
        rw [if_neg hne1, if_neg h3]
        rfl
      · rw [if_neg h3]
        have hhab : HABITAT ∈ s.entity_names := not_not.mp h3
        unfold nameToIndex
        rw [if_neg hne1, if_pos hhab, exc_ok_bind, if_neg hne2, if_pos hayse,
          exc_ok_bind]
        have hf : FIELD_ORDER LANDED_ON ≤ 9 := by decide
        have hlt : s.entity_names.indexOf HABITAT < (s.ycomp LANDED_ON).length := by
          rw [ycomp_length s LANDED_ON hwf hf, ← entity_names_length s]
          exact List.indexOf_lt_length.2 hhab
        rw [npGet_getD _ _ hlt 0, exc_ok_bind]

def pHA : PhysicalState :=
  ⟨[habEnt, ayseEnt], 9, 77, 50, false, "", "", 0, engEmpty⟩

def sHA : PhysicsState :=
  ⟨0, 0, 0, (List.replicate 22 0).set 16 1, pHA, 9⟩

theorem C3_craft_resolution_amended_witness :
    sHA.craft =
      (if HABITAT ∉ sHA.entity_names ∧ AYSE ∉ sHA.entity_names then .ok none
       else if AYSE ∉ sHA.entity_names then .ok (some HABITAT)
       else if HABITAT ∉ sHA.entity_names then .error (.noEntity HABITAT)
       else if (sHA.ycomp LANDED_ON).getD (sHA.entity_names.indexOf HABITAT) 0 =
           ((sHA.entity_names.indexOf AYSE : ℤ) : ℚ) then .ok (some AYSE)
       else .ok (some HABITAT)) :=
  C3_craft_resolution_amended sHA (by decide)

/-- The translated landed_on column produced by the cold-path population loop
when every reference resolves. -/
def coldLcol (S : PhysicalState) : List ℚ :=
  S.entities.map
    (fun e => ((landedIdx (S.entities.map Entity.name) e.landed_on : ℤ) : ℚ))

/-- The length the cold-path buffer is allocated with. -/
def coldLen (S : PhysicalState) : ℕ :=
  10 * S.entities.length + 2 +
    engFieldCount S.engineering.components.length S.engineering.coolant_loops.length
      S.engineering.radiators.length

/-- The cold-path buffer after population and heading normalization. -/
def coldArr (S : PhysicalState) (tau : ℚ) : List ℚ :=
  normHeading S.entities.length tau
    ((List.range (coldLen S)).map (coldVal S (coldLcol S)))

/-- The container the cold path produces. -/
def coldState (S : PhysicalState) (tau : ℚ) (idv : ℕ) : PhysicsState :=
  ⟨S.engineering.components.length, S.engineering.coolant_loops.length,
   S.engineering.radiators.length, coldArr S tau, S, idv⟩

theorem normHeading_length (n : ℕ) (tau : ℚ) (l : List ℚ) :
    (normHeading n tau l).length = l.length := by
  simp [normHeading]

theorem rangeMap_get {α : Type} (L : ℕ) (f : ℕ → α) (k : ℕ)
    (hk : k < ((List.range L).map f).length) :
    ((List.range L).map f).get ⟨k, hk⟩ = f k := by
  simp [List.get_eq_getElem]

theorem normHeading_get (n : ℕ) (tau : ℚ) (l : List ℚ) (k : ℕ) (hk : k < l.length)
    (hk2 : k < (normHeading n tau l).length) :
    (normHeading n tau l).get ⟨k, hk2⟩ =
      if FIELD_ORDER "heading" * n ≤ k ∧ k < (FIELD_ORDER "heading" + 1) * n
      then hmod tau (l.get ⟨k, hk⟩) else l.get ⟨k, hk⟩ := by
  unfold normHeading
  rw [rangeMap_get]
  have hd : l.getD k 0 = l.get ⟨k, hk⟩ := by
    simp [List.getD_eq_getElem?_getD, List.getElem?_eq_getElem hk, List.get_eq_getElem]
  rw [hd]

theorem coldArr_length (S : PhysicalState) (tau : ℚ) :
    (coldArr S tau).length = coldLen S := by
  simp [coldArr, normHeading_length]

/-- The heading-column test inside the buffer decides the field index. -/
theorem heading_range_iff (n f i : ℕ) (hi : i < n) :
    (4 * n ≤ n * f + i ∧ n * f + i < 5 * n) ↔ f = 4 := by
  constructor
  · rintro ⟨ha, hb⟩
    have h5 : n * f < n * 5 := by omega
    have hf5 : f < 5 := Nat.lt_of_mul_lt_mul_left h5
    by_contra hne
    have hf3 : f ≤ 3 := by omega
    have h3 : n * f ≤ n * 3 := Nat.mul_le_mul_left n hf3
    omega
  · rintro rfl
    omega

/-- Value of the normalized cold buffer at a mutable-field slot. -/
theorem coldState_slot (S : PhysicalState) (tau : ℚ) (f i : ℕ) (hf : f ≤ 9)
    (hi : i < S.entities.length) :
    npGet (coldArr S tau) ((S.entities.length : ℤ) * (f : ℤ) + (i : ℤ)) =
      .ok (if f = 4
           then hmod tau (coldVal S (coldLcol S) (S.entities.length * f + i))
           else coldVal S (coldLcol S) (S.entities.length * f + i)) := by
  have hkL : S.entities.length * f + i < coldLen S := by
    have hb : S.entities.length * f ≤ S.entities.length * 9 :=
      Nat.mul_le_mul_left _ hf
    unfold coldLen
    omega
  have hcast : (S.entities.length : ℤ) * (f : ℤ) + (i : ℤ) =
      ((S.entities.length * f + i : ℕ) : ℤ) := by
    push_cast
    ring
  have hlen : S.entities.length * f + i < (coldArr S tau).length := by
    rw [coldArr_length]
    exact hkL
  have hlen0 : S.entities.length * f + i <
      ((List.range (coldLen S)).map (coldVal S (coldLcol S))).length := by
    simp only [List.length_map, List.length_range]
    exact hkL
  rw [hcast, npGet_natCast _ _ hlen]
  unfold coldArr
  rw [normHeading_get _ tau _ _ hlen0, rangeMap_get]
  rw [FIELD_ORDER_heading]
  have hiff := heading_range_iff S.entities.length f i hi
  congr 1
  by_cases h4 : f = 4
  · rw [if_pos (by rw [show (4 + 1) = 5 from rfl]; exact hiff.mpr h4), if_pos h4]
  · rw [if_neg (by rw [show (4 + 1) = 5 from rfl]; exact fun hc => h4 (hiff.mp hc)),
      if_neg h4]

/-- Value written by the cold population loop at a mutable-field slot. -/
theorem coldVal_mut (S : PhysicalState) (lcol : List ℚ) (f i : ℕ)
    (hf : f ≤ 9) (hi : i < S.entities.length) :
    coldVal S lcol (S.entities.length * f + i) =
      (if f = 8 then lcol.getD i 0
       else pureMutVal f (S.entities.getD i default)) := by
  unfold coldVal
  have hn : 0 < S.entities.length := by omega
  have hb : S.entities.length * f ≤ S.entities.length * 9 :=
    Nat.mul_le_mul_left _ hf
  have h1 : S.entities.length * f + i < 10 * S.entities.length := by omega
  have hdiv : (S.entities.length * f + i) / S.entities.length = f := by
    rw [Nat.mul_add_div hn, Nat.div_eq_of_lt hi]
    omega
  have hmodd : (S.entities.length * f + i) % S.entities.length = i := by
    rw [Nat.mul_add_mod, Nat.mod_eq_of_lt hi]
  rw [if_pos h1, hdiv, hmodd, FIELD_ORDER_landed]

/-- Value written by the cold population loop at an engineering slot. -/
theorem coldVal_eng (S : PhysicalState) (lcol : List ℚ) (j : ℕ) :
    coldVal S lcol (10 * S.entities.length + 2 + j) = engVal S.engineering j := by
  unfold coldVal
  rw [if_neg (by omega), if_neg (by omega), if_neg (by omega)]
  congr 1
  omega

/-- The cold path of the container construction succeeds and produces the
populated, normalized buffer whenever every landed_on reference resolves and
the subsystem cardinalities match the configuration. -/
theorem init_cold_eq (tau : ℚ) (idv : ℕ) (S : PhysicalState)
    (hL : ∀ e ∈ S.entities,
      e.landed_on = "" ∨ e.landed_on ∈ S.entities.map Entity.name) :
    PhysicsState.init S.engineering.components.length
      S.engineering.coolant_loops.length S.engineering.radiators.length
      tau idv none S = .ok (coldState S tau idv) := by
  have hmap : mapME
      (fun e => (nameToIndex (S.entities.map Entity.name) e.landed_on).map
        (fun z => (z : ℚ))) S.entities = .ok (coldLcol S) := by
    apply mapME_ok
    intro e he
    unfold nameToIndex landedIdx
    by_cases hemp : e.landed_on = ""
    · simp only [if_pos hemp]
      rfl
    · rcases hL e he with h | h
      · exact absurd h hemp
      · simp only [if_neg hemp, if_pos h]
        rfl
  simp only [PhysicsState.init, hmap, exc_ok_bind]
  rw [if_neg (by omega), if_neg (by omega), if_neg (by omega),
    if_neg (by simp [coldLen])]
  unfold coldState coldArr coldLen
  rfl

/-- Reading one row back out of the cold container yields the original
snapshot entity with its heading normalized and its landed_on name restored:
unchanging fields come from the retained snapshot and every mutable field is
decoded from the buffer slot the population loop wrote. -/
theorem readEntityRow_cold (S : PhysicalState) (tau : ℚ) (idv : ℕ) (i : ℕ)
    (hi : i < S.entities.length)
    (hLi : (S.entities.getD i default).landed_on = "" ∨
      (S.entities.getD i default).landed_on ∈ S.entities.map Entity.name) :
    (coldState S tau idv).readEntityRow i =
      .ok { S.entities.getD i default with
            heading := hmod tau (S.entities.getD i default).heading } := by
  have hslot : ∀ nm : String, FIELD_ORDER nm ≤ 9 →
      (coldState S tau idv).viewNum nm (i : ℤ) =
        .ok (if FIELD_ORDER nm = 4
             then hmod tau
               (coldVal S (coldLcol S) (S.entities.length * FIELD_ORDER nm + i))
             else coldVal S (coldLcol S) (S.entities.length * FIELD_ORDER nm + i)) := by
    intro nm hnm
    show npGet (coldArr S tau)
      ((S.entities.length : ℤ) * ((FIELD_ORDER nm : ℕ) : ℤ) + ((i : ℕ) : ℤ)) = _
    exact coldState_slot S tau (FIELD_ORDER nm) i hnm hi
  have hx : (coldState S tau idv).viewNum "x" (i : ℤ) =
      .ok (S.entities.getD i default).x := by
    rw [hslot "x" (by decide), if_neg (by decide),
      coldVal_mut S (coldLcol S) (FIELD_ORDER "x") i (by decide) hi,
      if_neg (by decide)]
    rfl
  have hy : (coldState S tau idv).viewNum "y" (i : ℤ) =
      .ok (S.entities.getD i default).y := by
    rw [hslot "y" (by decide), if_neg (by decide),
      coldVal_mut S (coldLcol S) (FIELD_ORDER "y") i (by decide) hi,
      if_neg (by decide)]
    rfl
  have hvx : (coldState S tau idv).viewNum "vx" (i : ℤ) =
      .ok (S.entities.getD i default).vx := by
    rw [hslot "vx" (by decide), if_neg (by decide),
      coldVal_mut S (coldLcol S) (FIELD_ORDER "vx") i (by decide) hi,
      if_neg (by decide)]
    rfl
  have hvy : (coldState S tau idv).viewNum "vy" (i : ℤ) =
      .ok (S.entities.getD i default).vy := by
    rw [hslot "vy" (by decide), if_neg (by decide),
      coldVal_mut S (coldLcol S) (FIELD_ORDER "vy") i (by decide) hi,
      if_neg (by decide)]
    rfl
  have hh : (coldState S tau idv).viewNum "heading" (i : ℤ) =
      .ok (hmod tau (S.entities.getD i default).heading) := by
    rw [hslot "heading" (by decide), if_pos (by decide),
      coldVal_mut S (coldLcol S) (FIELD_ORDER "heading") i (by decide) hi,
      if_neg (by decide)]
    rfl
  have hsp : (coldState S tau idv).viewNum "spin" (i : ℤ) =
      .ok (S.entities.getD i default).spin := by
    rw [hslot "spin" (by decide), if_neg (by decide),
      coldVal_mut S (coldLcol S) (FIELD_ORDER "spin") i (by decide) hi,
      if_neg (by decide)]
    rfl
  have hfu : (coldState S tau idv).viewNum "fuel" (i : ℤ) =
      .ok (S.entities.getD i default).fuel := by
    rw [hslot "fuel" (by decide), if_neg (by decide),
      coldVal_mut S (coldLcol S) (FIELD_ORDER "fuel") i (by decide) hi,
      if_neg (by decide)]
    rfl
  have hth : (coldState S tau idv).viewNum "throttle" (i : ℤ) =
      .ok (S.entities.getD i default).throttle := by
    rw [hslot "throttle" (by decide), if_neg (by decide),
      coldVal_mut S (coldLcol S) (FIELD_ORDER "throttle") i (by decide) hi,
      if_neg (by decide)]
    rfl
  have hlcol : (coldLcol S).getD i 0 =
      ((landedIdx (S.entities.map Entity.name)
        (S.entities.getD i default).landed_on : ℤ) : ℚ) := by
    unfold coldLcol
    have hil : i < (S.entities.map (fun e =>
        ((landedIdx (S.entities.map Entity.name) e.landed_on : ℤ) : ℚ))).length := by
      simp [hi]
    have hie : i < S.entities.length := hi
    rw [List.getD_eq_getElem?_getD, List.getElem?_eq_getElem hil]
    simp [List.getElem_map, List.getD_eq_getElem?_getD, List.getElem?_eq_getElem hie]
  have hlo : (coldState S tau idv).landedGet (i : ℤ) =
      .ok (S.entities.getD i default).landed_on := by
    unfold PhysicsState.landedGet
    rw [hslot LANDED_ON (by decide), if_neg (by decide),
      coldVal_mut S (coldLcol S) (FIELD_ORDER LANDED_ON) i (by decide) hi,
      if_pos (by decide), hlcol, exc_ok_bind, pyInt_intCast]
    by_cases hemp : (S.entities.getD i default).landed_on = ""
    · unfold landedIdx
      rw [if_pos hemp, if_pos rfl, hemp]
    · have hmem : (S.entities.getD i default).landed_on ∈ S.entities.map Entity.name := by
        rcases hLi with hcase | hcase
        · exact absurd hcase hemp
        · exact hcase
      unfold landedIdx
      rw [if_neg hemp]
      have hidxlt : (S.entities.map Entity.name).indexOf
          (S.entities.getD i default).landed_on <
          (S.entities.map Entity.name).length :=
        List.indexOf_lt_length.2 hmem
      have hne : (((S.entities.map Entity.name).indexOf
          (S.entities.getD i default).landed_on : ℕ) : ℤ) ≠ NO_INDEX := by
        unfold NO_INDEX
        omega
      rw [if_neg hne]
      show npGet (S.entities.map Entity.name) _ = _
      rw [npGet_natCast _ _ hidxlt]
      congr 1
      exact List.indexOf_get hidxlt
  have hbr : (coldState S tau idv).viewBool "broken" (i : ℤ) =
      .ok (S.entities.getD i default).broken := by
    unfold PhysicsState.viewBool
    rw [hslot "broken" (by decide), if_neg (by decide),
      coldVal_mut S (coldLcol S) (FIELD_ORDER "broken") i (by decide) hi,
      if_neg (by decide), exc_map_ok]
    rw [show pureMutVal (FIELD_ORDER "broken") (S.entities.getD i default) =
      boolToQ (S.entities.getD i default).broken from rfl, qToBool_boolToQ]
  unfold PhysicsState.readEntityRow
  rw [hx, exc_ok_bind, hy, exc_ok_bind, hvx, exc_ok_bind, hvy, exc_ok_bind,
    hh, exc_ok_bind, hsp, exc_ok_bind, hfu, exc_ok_bind, hth, exc_ok_bind,
    hlo, exc_ok_bind, hbr, exc_ok_bind]
  rfl

theorem block_div_mod (w c fo : ℕ) (hw : 0 < w) (hfo : fo < w) :
    (c * w + fo) / w = c ∧ (c * w + fo) % w = fo := by
  constructor
  · rw [Nat.mul_comm c w, Nat.mul_add_div hw, Nat.div_eq_of_lt hfo]
    omega
  · rw [Nat.mul_comm c w, Nat.mul_add_mod, Nat.mod_eq_of_lt hfo]

/-- Element j of the engineering slice of the cold container is exactly what
the populate loop wrote there. -/
theorem engSlice_get (S : PhysicalState) (tau : ℚ) (idv : ℕ) (j : ℕ)
    (hj : j < engFieldCount S.engineering.components.length
      S.engineering.coolant_loops.length S.engineering.radiators.length)
    (hj2 : j < ((coldState S tau idv).engineering.arr).length) :
    ((coldState S tau idv).engineering.arr).get ⟨j, hj2⟩ = engVal S.engineering j := by
  have hA : (coldState S tau idv).engineering.arr =
      (coldArr S tau).drop (10 * S.entities.length + 2) := by
    show (coldArr S tau).drop ((coldArr S tau).length -
      engFieldCount S.engineering.components.length
        S.engineering.coolant_loops.length S.engineering.radiators.length) = _
    rw [coldArr_length]
    congr 1
    unfold coldLen
    omega
  have hk0 : 10 * S.entities.length + 2 + j < coldLen S := by
    unfold coldLen
    omega
  have hk : 10 * S.entities.length + 2 + j < (coldArr S tau).length := by
    rw [coldArr_length]
    exact hk0
  have hstep : ((coldState S tau idv).engineering.arr).get ⟨j, hj2⟩ =
      (coldArr S tau).get ⟨10 * S.entities.length + 2 + j, hk⟩ := by
    revert hj2
    rw [hA]
    intro hj2
    simp [List.get_eq_getElem, List.getElem_drop]
  rw [hstep]
  unfold coldArr normHeading
  rw [rangeMap_get]
  rw [if_neg (by rw [FIELD_ORDER_heading]; omega)]
  have hgetd : ((List.range (coldLen S)).map (coldVal S (coldLcol S))).getD
      (10 * S.entities.length + 2 + j) 0 =
      coldVal S (coldLcol S) (10 * S.entities.length + 2 + j) := by
    have hK : 10 * S.entities.length + 2 + j <
        ((List.range (coldLen S)).map (coldVal S (coldLcol S))).length := by
      simp only [List.length_map, List.length_range]
      exact hk0
    rw [List.getD_eq_getElem?_getD, List.getElem?_eq_getElem hK]
    simp
  rw [hgetd]
  exact coldVal_eng S (coldLcol S) j

theorem engArr_length (S : PhysicalState) (tau : ℚ) (idv : ℕ) :
    ((coldState S tau idv).engineering.arr).length =
      engFieldCount S.engineering.components.length
        S.engineering.coolant_loops.length S.engineering.radiators.length := by
  show ((coldArr S tau).drop ((coldArr S tau).length -
    engFieldCount S.engineering.components.length
      S.engineering.coolant_loops.length S.engineering.radiators.length)).length = _
  simp only [List.length_drop, coldArr_length]
  unfold coldLen
  omega

theorem compSlice_npGet (S : PhysicalState) (tau : ℚ) (idv : ℕ) (m : ℕ)
    (hm : m < S.engineering.components.length * N_COMPONENT_FIELDS) :
    npGet ((coldState S tau idv).engineering.compSlice) (m : ℤ) =
      .ok (engVal S.engineering m) := by
  have hE : m < engFieldCount S.engineering.components.length
      S.engineering.coolant_loops.length S.engineering.radiators.length := by
    unfold engFieldCount
    omega
  have harr : m < ((coldState S tau idv).engineering.arr).length := by
    rw [engArr_length]
    exact hE
  have hlen : m < ((coldState S tau idv).engineering.compSlice).length := by
    show m < (((coldState S tau idv).engineering.arr).take
      (S.engineering.components.length * N_COMPONENT_FIELDS)).length
    simp only [List.length_take]
    omega
  rw [npGet_natCast _ _ hlen]
  congr 1
  have hstep : ((coldState S tau idv).engineering.compSlice).get ⟨m, hlen⟩ =
      ((coldState S tau idv).engineering.arr).get ⟨m, harr⟩ := by
    show (((coldState S tau idv).engineering.arr).take
      (S.engineering.components.length * N_COMPONENT_FIELDS)).get ⟨m, hlen⟩ = _
    simp [List.get_eq_getElem, List.getElem_take]
  rw [hstep]
  exact engSlice_get S tau idv m hE harr

theorem coolSlice_npGet (S : PhysicalState) (tau : ℚ) (idv : ℕ) (m : ℕ)
    (hm : m < S.engineering.coolant_loops.length * N_COOLANT_FIELDS) :
    npGet ((coldState S tau idv).engineering.coolSlice) (m : ℤ) =
      .ok (engVal S.engineering
        (S.engineering.components.length * N_COMPONENT_FIELDS + m)) := by
  have hE : S.engineering.components.length * N_COMPONENT_FIELDS + m <
      engFieldCount S.engineering.components.length
        S.engineering.coolant_loops.length S.engineering.radiators.length := by
    unfold engFieldCount
    omega
  have harr : S.engineering.components.length * N_COMPONENT_FIELDS + m <
      ((coldState S tau idv).engineering.arr).length := by
    rw [engArr_length]
    exact hE
  have hlen : m < ((coldState S tau idv).engineering.coolSlice).length := by
    show m < ((((coldState S tau idv).engineering.arr).drop
      (S.engineering.components.length * N_COMPONENT_FIELDS)).take
      (S.engineering.coolant_loops.length * N_COOLANT_FIELDS)).length
    simp only [List.length_take, List.length_drop, engArr_length]
    unfold engFieldCount
    omega
  rw [npGet_natCast _ _ hlen]
  congr 1
  have hstep : ((coldState S tau idv).engineering.coolSlice).get ⟨m, hlen⟩ =
      ((coldState S tau idv).engineering.arr).get
        ⟨S.engineering.components.length * N_COMPONENT_FIELDS + m, harr⟩ := by
    show ((((coldState S tau idv).engineering.arr).drop
      (S.engineering.components.length * N_COMPONENT_FIELDS)).take
      (S.engineering.coolant_loops.length * N_COOLANT_FIELDS)).get ⟨m, hlen⟩ = _
    simp [List.get_eq_getElem, List.getElem_take, List.getElem_drop]
  rw [hstep]
  exact engSlice_get S tau idv _ hE harr

theorem radSlice_npGet (S : PhysicalState) (tau : ℚ) (idv : ℕ) (m : ℕ)
    (hm : m < S.engineering.radiators.length * N_RADIATOR_FIELDS) :
    npGet ((coldState S tau idv).engineering.radSlice) (m : ℤ) =
      .ok (engVal S.engineering
        (S.engineering.components.length * N_COMPONENT_FIELDS +
         S.engineering.coolant_loops.length * N_COOLANT_FIELDS + m)) := by
  have hE : S.engineering.components.length * N_COMPONENT_FIELDS +
      S.engineering.coolant_loops.length * N_COOLANT_FIELDS + m <
      engFieldCount S.engineering.components.length
        S.engineering.coolant_loops.length S.engineering.radiators.length := by
    unfold engFieldCount
    omega
  have harr : S.engineering.components.length * N_COMPONENT_FIELDS +
      S.engineering.coolant_loops.length * N_COOLANT_FIELDS + m <
      ((coldState S tau idv).engineering.arr).length := by
    rw [engArr_length]
    exact hE
  have hlen : m < ((coldState S tau idv).engineering.radSlice).length := by
    show m < (((coldState S tau idv).engineering.arr).drop
      (S.engineering.components.length * N_COMPONENT_FIELDS +
       S.engineering.coolant_loops.length * N_COOLANT_FIELDS)).length
    simp only [List.length_drop, engArr_length]
    unfold engFieldCount
    omega
  rw [npGet_natCast _ _ hlen]
  congr 1
  have hstep : ((coldState S tau idv).engineering.radSlice).get ⟨m, hlen⟩ =
      ((coldState S tau idv).engineering.arr).get
        ⟨S.engineering.components.length * N_COMPONENT_FIELDS +
         S.engineering.coolant_loops.length * N_COOLANT_FIELDS + m, harr⟩ := by
    show (((coldState S tau idv).engineering.arr).drop
      (S.engineering.components.length * N_COMPONENT_FIELDS +
       S.engineering.coolant_loops.length * N_COOLANT_FIELDS)).get ⟨m, hlen⟩ = _
    simp [List.get_eq_getElem, List.getElem_drop]
  rw [hstep]
  exact engSlice_get S tau idv _ hE harr

theorem engVal_comp (ep : EngineeringProto) (cn fo : ℕ)
    (hcn : cn < ep.components.length) (hfo : fo < N_COMPONENT_FIELDS) :
    engVal ep (cn * N_COMPONENT_FIELDS + fo) =
      compFieldVal fo (ep.components.getD cn default) := by
  simp only [engVal]
  have hstep : (cn + 1) * N_COMPONENT_FIELDS ≤
      ep.components.length * N_COMPONENT_FIELDS :=
    Nat.mul_le_mul_right _ (by omega)
  have hlt : cn * N_COMPONENT_FIELDS + fo <
      ep.components.length * N_COMPONENT_FIELDS := by
    simp only [Nat.add_mul, Nat.one_mul] at hstep
    omega
  rw [if_pos hlt]
  rcases block_div_mod N_COMPONENT_FIELDS cn fo (by decide) hfo with ⟨hd, hm⟩
  rw [hd, hm]

theorem engVal_cool (ep : EngineeringProto) (ln fo : ℕ)
    (hln : ln < ep.coolant_loops.length) (hfo : fo < N_COOLANT_FIELDS) :
    engVal ep (ep.components.length * N_COMPONENT_FIELDS +
      (ln * N_COOLANT_FIELDS + fo)) =
      coolFieldVal fo (ep.coolant_loops.getD ln default) := by
  simp only [engVal]
  have hstep : (ln + 1) * N_COOLANT_FIELDS ≤
      ep.coolant_loops.length * N_COOLANT_FIELDS :=
    Nat.mul_le_mul_right _ (by omega)
  have hin : ln * N_COOLANT_FIELDS + fo <
      ep.coolant_loops.length * N_COOLANT_FIELDS := by
    simp only [Nat.add_mul, Nat.one_mul] at hstep
    omega
  rw [if_neg (by omega), if_pos (by omega)]
  rw [Nat.add_sub_cancel_left]
  rcases block_div_mod N_COOLANT_FIELDS ln fo (by decide) hfo with ⟨hd, hm⟩
  rw [hd, hm]

theorem engVal_rad (ep : EngineeringProto) (rn fo : ℕ)
    (hrn : rn < ep.radiators.length) (hfo : fo < N_RADIATOR_FIELDS) :
    engVal ep (ep.components.length * N_COMPONENT_FIELDS +
      ep.coolant_loops.length * N_COOLANT_FIELDS +
      (rn * N_RADIATOR_FIELDS + fo)) =
      radFieldVal fo (ep.radiators.getD rn default) := by
  simp only [engVal]
  rw [if_neg (by omega), if_neg (by omega)]
  have harith : ep.components.length * N_COMPONENT_FIELDS +
      ep.coolant_loops.length * N_COOLANT_FIELDS +
      (rn * N_RADIATOR_FIELDS + fo) -
      (ep.components.length * N_COMPONENT_FIELDS +
        ep.coolant_loops.length * N_COOLANT_FIELDS) =
      rn * N_RADIATOR_FIELDS + fo := by
    omega
  rw [harith]
  rcases block_div_mod N_RADIATOR_FIELDS rn fo (by decide) hfo with ⟨hd, hm⟩
  rw [hd, hm]

theorem mul_bound (c len w fo : ℕ) (hc : c < len) (hfo : fo < w) :
    c * w + fo < len * w := by
  have hstep : (c + 1) * w ≤ len * w := Nat.mul_le_mul_right _ (by omega)
  simp only [Nat.add_mul, Nat.one_mul] at hstep
  omega

/-- Reading one component back from the cold buffer restores the snapshot
component: the five electrical fields are decoded from the populated slots
and the coolant reference rides along from the snapshot copy. -/
theorem readComp_cold (S : PhysicalState) (tau : ℚ) (idv : ℕ) (cn : ℕ)
    (hcn : cn < S.engineering.components.length) :
    (coldState S tau idv).engineering.readComp cn =
      .ok (S.engineering.components.getD cn default) := by
  have hfield : ∀ fo : ℕ, fo < N_COMPONENT_FIELDS →
      npGet ((coldState S tau idv).engineering.compSlice)
        ((cn * N_COMPONENT_FIELDS + fo : ℕ) : ℤ) =
      .ok (compFieldVal fo (S.engineering.components.getD cn default)) := by
    intro fo hfo
    rw [compSlice_npGet S tau idv _ (mul_bound cn _ _ fo hcn hfo),
      engVal_comp S.engineering cn fo hcn hfo]
  have h0 : ComponentView.connected
      ⟨(coldState S tau idv).engineering,
       (coldState S tau idv).engineering.compSlice, (cn : ℤ)⟩ =
      .ok (S.engineering.components.getD cn default).connected := by
    unfold ComponentView.connected
    rw [show (cn : ℤ) * ((N_COMPONENT_FIELDS : ℕ) : ℤ) + 0 =
      ((cn * N_COMPONENT_FIELDS + 0 : ℕ) : ℤ) from by push_cast; ring]
    rw [hfield 0 (by decide), exc_map_ok]
    rw [show compFieldVal 0 (S.engineering.components.getD cn default) =
      boolToQ (S.engineering.components.getD cn default).connected from rfl,
      qToBool_boolToQ]
  have h1 : ComponentView.temperature
      ⟨(coldState S tau idv).engineering,
       (coldState S tau idv).engineering.compSlice, (cn : ℤ)⟩ =
      .ok (S.engineering.components.getD cn default).temperature := by
    unfold ComponentView.temperature
    rw [show (cn : ℤ) * ((N_COMPONENT_FIELDS : ℕ) : ℤ) + 1 =
      ((cn * N_COMPONENT_FIELDS + 1 : ℕ) : ℤ) from by push_cast; ring]
    rw [hfield 1 (by decide)]
    rfl
  have h2 : ComponentView.resistance
      ⟨(coldState S tau idv).engineering,
       (coldState S tau idv).engineering.compSlice, (cn : ℤ)⟩ =
      .ok (S.engineering.components.getD cn default).resistance := by
    unfold ComponentView.resistance
    rw [show (cn : ℤ) * ((N_COMPONENT_FIELDS : ℕ) : ℤ) + 2 =
      ((cn * N_COMPONENT_FIELDS + 2 : ℕ) : ℤ) from by push_cast; ring]
    rw [hfield 2 (by decide)]
    rfl
  have h3 : ComponentView.voltage
      ⟨(coldState S tau idv).engineering,
       (coldState S tau idv).engineering.compSlice, (cn : ℤ)⟩ =
      .ok (S.engineering.components.getD cn default).voltage := by
    unfold ComponentView.voltage
    rw [show (cn : ℤ) * ((N_COMPONENT_FIELDS : ℕ) : ℤ) + 3 =
      ((cn * N_COMPONENT_FIELDS + 3 : ℕ) : ℤ) from by push_cast; ring]
    rw [hfield 3 (by decide)]
    rfl
  have h4 : ComponentView.current
      ⟨(coldState S tau idv).engineering,
       (coldState S tau idv).engineering.compSlice, (cn : ℤ)⟩ =
      .ok (S.engineering.components.getD cn default).current := by
    unfold ComponentView.current
    rw [show (cn : ℤ) * ((N_COMPONENT_FIELDS : ℕ) : ℤ) + 4 =
      ((cn * N_COMPONENT_FIELDS + 4 : ℕ) : ℤ) from by push_cast; ring]
    rw [hfield 4 (by decide)]
    rfl
  simp only [EngineeringState.readComp]
  rw [h0, exc_ok_bind, h1, exc_ok_bind, h2, exc_ok_bind, h3, exc_ok_bind,
    h4, exc_ok_bind]
  rfl

/-- Reading one coolant loop back from the cold buffer restores the snapshot
loop. -/
theorem readCoolant_cold (S : PhysicalState) (tau : ℚ) (idv : ℕ) (ln : ℕ)
    (hln : ln < S.engineering.coolant_loops.length) :
    (coldState S tau idv).engineering.readCoolant ln =
      .ok (S.engineering.coolant_loops.getD ln default) := by
  have hfield : ∀ fo : ℕ, fo < N_COOLANT_FIELDS →
      npGet ((coldState S tau idv).engineering.coolSlice)
        ((ln * N_COOLANT_FIELDS + fo : ℕ) : ℤ) =
      .ok (coolFieldVal fo (S.engineering.coolant_loops.getD ln default)) := by
    intro fo hfo
    rw [coolSlice_npGet S tau idv _ (mul_bound ln _ _ fo hln hfo),
      engVal_cool S.engineering ln fo hln hfo]
  have h0 : CoolantView.coolant_temp
      ⟨(coldState S tau idv).engineering.coolSlice, (ln : ℤ)⟩ =
      .ok (S.engineering.coolant_loops.getD ln default).coolant_temp := by
    unfold CoolantView.coolant_temp
    rw [show (ln : ℤ) * ((N_COOLANT_FIELDS : ℕ) : ℤ) + 0 =
      ((ln * N_COOLANT_FIELDS + 0 : ℕ) : ℤ) from by push_cast; ring]
    rw [hfield 0 (by decide)]
    rfl
  have h1 : CoolantView.primary_pump_on
      ⟨(coldState S tau idv).engineering.coolSlice, (ln : ℤ)⟩ =
      .ok (S.engineering.coolant_loops.getD ln default).primary_pump_on := by
    unfold CoolantView.primary_pump_on
    rw [show (ln : ℤ) * ((N_COOLANT_FIELDS : ℕ) : ℤ) + 1 =
      ((ln * N_COOLANT_FIELDS + 1 : ℕ) : ℤ) from by push_cast; ring]
    rw [hfield 1 (by decide), exc_map_ok]
    rw [show coolFieldVal 1 (S.engineering.coolant_loops.getD ln default) =
      boolToQ (S.engineering.coolant_loops.getD ln default).primary_pump_on from rfl,
      qToBool_boolToQ]
  have h2 : CoolantView.secondary_pump_on
      ⟨(coldState S tau idv).engineering.coolSlice, (ln : ℤ)⟩ =
      .ok (S.engineering.coolant_loops.getD ln default).secondary_pump_on := by
    unfold CoolantView.secondary_pump_on
    rw [show (ln : ℤ) * ((N_COOLANT_FIELDS : ℕ) : ℤ) + 2 =
      ((ln * N_COOLANT_FIELDS + 2 : ℕ) : ℤ) from by push_cast; ring]
    rw [hfield 2 (by decide), exc_map_ok]
    rw [show coolFieldVal 2 (S.engineering.coolant_loops.getD ln default) =
      boolToQ (S.engineering.coolant_loops.getD ln default).secondary_pump_on from rfl,
      qToBool_boolToQ]
  simp only [EngineeringState.readCoolant]
  rw [h0, exc_ok_bind, h1, exc_ok_bind, h2, exc_ok_bind]

/-- Reading one radiator back from the cold buffer restores the snapshot
radiator. -/
theorem readRad_cold (S : PhysicalState) (tau : ℚ) (idv : ℕ) (rn : ℕ)
    (hrn : rn < S.engineering.radiators.length) :
    (coldState S tau idv).engineering.readRad rn =
      .ok (S.engineering.radiators.getD rn default) := by
  have hfield : ∀ fo : ℕ, fo < N_RADIATOR_FIELDS →
      npGet ((coldState S tau idv).engineering.radSlice)
        ((rn * N_RADIATOR_FIELDS + fo : ℕ) : ℤ) =
      .ok (radFieldVal fo (S.engineering.radiators.getD rn default)) := by
    intro fo hfo
    rw [radSlice_npGet S tau idv _ (mul_bound rn _ _ fo hrn hfo),
      engVal_rad S.engineering rn fo hrn hfo]
  have h0 : RadiatorView.attached_to_coolant_loop
      ⟨(coldState S tau idv).engineering,
       (coldState S tau idv).engineering.radSlice, (rn : ℤ)⟩ =
      .ok (S.engineering.radiators.getD rn default).attached_to_coolant_loop := by
    unfold RadiatorView.attached_to_coolant_loop
    rw [show (rn : ℤ) * ((N_RADIATOR_FIELDS : ℕ) : ℤ) + 0 =
      ((rn * N_RADIATOR_FIELDS + 0 : ℕ) : ℤ) from by push_cast; ring]
    rw [hfield 0 (by decide), exc_map_ok]
    rw [show radFieldVal 0 (S.engineering.radiators.getD rn default) =
      (((S.engineering.radiators.getD rn default).attached_to_coolant_loop : ℤ) : ℚ)
      from rfl, pyInt_intCast]
  have h1 : RadiatorView.functioning
      ⟨(coldState S tau idv).engineering,
       (coldState S tau idv).engineering.radSlice, (rn : ℤ)⟩ =
      .ok (S.engineering.radiators.getD rn default).functioning := by
    unfold RadiatorView.functioning
    rw [show (rn : ℤ) * ((N_RADIATOR_FIELDS : ℕ) : ℤ) + 1 =
      ((rn * N_RADIATOR_FIELDS + 1 : ℕ) : ℤ) from by push_cast; ring]
    rw [hfield 1 (by decide), exc_map_ok]
    rw [show radFieldVal 1 (S.engineering.radiators.getD rn default) =
      boolToQ (S.engineering.radiators.getD rn default).functioning from rfl,
      qToBool_boolToQ]
  simp only [EngineeringState.readRad]
  rw [h0, exc_ok_bind, h1, exc_ok_bind]

theorem range_map_getD {α : Type} [Inhabited α] (l : List α) :
    (List.range l.length).map (fun k => l.getD k default) = l := by
  apply List.ext_getElem
  · simp
  · intro k h1 h2
    simp only [List.getElem_map, List.getElem_range]
    rw [List.getD_eq_getElem?_getD, List.getElem?_eq_getElem h2]
    rfl

theorem overwriteFirst_self {α : Type} (l : List α) : overwriteFirst l l = l := by
  simp [overwriteFirst, List.drop_length]

/-- The engineering round trip of the cold container rebuilds exactly the
snapshot engineering message: every buffer-resident field decodes to the
value the populate loop encoded, and everything else is copied from the
snapshot. -/
theorem engAsProto_cold (S : PhysicalState) (tau : ℚ) (idv : ℕ) :
    (coldState S tau idv).engineering.as_proto = .ok S.engineering := by
  unfold EngineeringState.as_proto
  have hmC : min (coldState S tau idv).engineering.nC
      (coldState S tau idv).engineering.proto.components.length =
      S.engineering.components.length := Nat.min_self _
  have hmL : min (coldState S tau idv).engineering.nL
      (coldState S tau idv).engineering.proto.coolant_loops.length =
      S.engineering.coolant_loops.length := Nat.min_self _
  have hmR : min (coldState S tau idv).engineering.nR
      (coldState S tau idv).engineering.proto.radiators.length =
      S.engineering.radiators.length := Nat.min_self _
  have hC : mapME (coldState S tau idv).engineering.readComp
      (List.range S.engineering.components.length) =
      .ok S.engineering.components := by
    rw [mapME_ok ((coldState S tau idv).engineering.readComp)
      (fun cn => S.engineering.components.getD cn default)
      (List.range S.engineering.components.length)
      (fun cn hcn => readComp_cold S tau idv cn (List.mem_range.mp hcn)),
      range_map_getD]
  have hLp : mapME (coldState S tau idv).engineering.readCoolant
      (List.range S.engineering.coolant_loops.length) =
      .ok S.engineering.coolant_loops := by
    rw [mapME_ok ((coldState S tau idv).engineering.readCoolant)
      (fun ln => S.engineering.coolant_loops.getD ln default)
      (List.range S.engineering.coolant_loops.length)
      (fun ln hln => readCoolant_cold S tau idv ln (List.mem_range.mp hln)),
      range_map_getD]
  have hRp : mapME (coldState S tau idv).engineering.readRad
      (List.range S.engineering.radiators.length) =
      .ok S.engineering.radiators := by
    rw [mapME_ok ((coldState S tau idv).engineering.readRad)
      (fun rn => S.engineering.radiators.getD rn default)
      (List.range S.engineering.radiators.length)
      (fun rn hrn => readRad_cold S tau idv rn (List.mem_range.mp hrn)),
      range_map_getD]
  rw [hmC, hmL, hmR, hC, exc_ok_bind, hLp, exc_ok_bind, hRp, exc_ok_bind]
  show Except.ok { S.engineering with
    components := overwriteFirst S.engineering.components S.engineering.components,
    coolant_loops :=
      overwriteFirst S.engineering.coolant_loops S.engineering.coolant_loops,
    radiators := overwriteFirst S.engineering.radiators S.engineering.radiators } =
    Except.ok S.engineering
  rw [overwriteFirst_self, overwriteFirst_self, overwriteFirst_self]

theorem getD_mem_of_lt {α : Type} [Inhabited α] (l : List α) (i : ℕ)
    (h : i < l.length) : l.getD i default ∈ l := by
  rw [List.getD_eq_getElem?_getD, List.getElem?_eq_getElem h]
  exact List.getElem_mem h

/-- C1: building the container cold from a structured snapshot whose
landed_on references resolve and whose subsystem cardinalities match, then
reconstructing a snapshot through as_proto, returns exactly the original
snapshot with each entity heading replaced by its normalized value; the
landed_on names survive the index round trip unchanged, and for a positive
modulus the normalized headings lie in the interval from zero up to the
modulus. -/
theorem C1_cold_roundtrip (nC nL nR idv : ℕ) (tau : ℚ) (S : PhysicalState)
    (hL : ∀ e ∈ S.entities,
      e.landed_on = "" ∨ e.landed_on ∈ S.entities.map Entity.name)
    (hcomp : S.engineering.components.length = nC)
    (hcool : S.engineering.coolant_loops.length = nL)
    (hrad : S.engineering.radiators.length = nR) :
    ∃ s : PhysicsState,
      PhysicsState.init nC nL nR tau idv none S = .ok s ∧
      s.as_proto = .ok (normState tau S) ∧
      (0 < tau → ∀ e ∈ (normState tau S).entities,
        0 ≤ e.heading ∧ e.heading < tau) := by
  subst hcomp
  subst hcool
  subst hrad
  refine ⟨coldState S tau idv, init_cold_eq tau idv S hL, ?_, ?_⟩
  · unfold PhysicsState.as_proto
    have hn : (coldState S tau idv).n = S.entities.length := rfl
    have hents : mapME (coldState S tau idv).readEntityRow
        (List.range (coldState S tau idv).n) =
        .ok ((List.range S.entities.length).map
          (fun i => { S.entities.getD i default with
            heading := hmod tau (S.entities.getD i default).heading })) := by
      rw [hn]
      apply mapME_ok
      intro i hi
      have hi2 : i < S.entities.length := List.mem_range.mp hi
      exact readEntityRow_cold S tau idv i hi2
        (hL (S.entities.getD i default) (getD_mem_of_lt S.entities i hi2))
    rw [hents, exc_ok_bind, engAsProto_cold S tau idv, exc_ok_bind]
    have hlist : (List.range S.entities.length).map
        (fun i => { S.entities.getD i default with
          heading := hmod tau (S.entities.getD i default).heading }) =
        S.entities.map (fun e => { e with heading := hmod tau e.heading }) := by
      apply List.ext_getElem
      · simp
      · intro k h1 h2
        simp only [List.getElem_map, List.getElem_range]
        have hk : k < S.entities.length := by
          simpa using h2
        have hgd : S.entities.getD k default = S.entities[k] := by
          rw [List.getD_eq_getElem?_getD, List.getElem?_eq_getElem hk]
          rfl
        rw [hgd]
    rw [hlist]
    rfl
  · intro ht e he
    unfold normState at he
    simp only [List.mem_map] at he
    obtain ⟨e0, he0, hfe⟩ := he
    subst hfe
    exact ⟨hmod_nonneg tau e0.heading ht, hmod_lt tau e0.heading ht⟩

theorem C1_cold_roundtrip_witness :
    ∃ s : PhysicsState,
      PhysicsState.init 1 1 1 5 0 none pFix = .ok s ∧
      s.as_proto = .ok (normState 5 pFix) ∧
      (0 < (5 : ℚ) → ∀ e ∈ (normState 5 pFix).entities,
        0 ≤ e.heading ∧ e.heading < 5) :=
  C1_cold_roundtrip 1 1 1 0 5 pFix (by decide) (by decide) (by decide) (by decide)
